import Mathlib

/-!
Verification of the BrownFi order-book integration adapters' pool math.

This file gives a shallow embedding of the two pricing engines of the
repository:

* `BrownFi.V1` embeds `BrownFiPoolMath` (`swapExactInput`, `swapExactOutput`
  and the `mulDivRoundingUp` helper) over Q128 fixed-point arithmetic.
* `BrownFi.V2` embeds `BrownFiV2PoolMath` (`swapExactInput`, `swapExactOutput`,
  `spotPriceWithoutFee` and every private helper: `mulDiv`, `sqrt`,
  `parseRawToDefaultDecimals`, `parseDefaultDecimalsToRaw`, `getSkewnessPrice`,
  `computeLeftNumerator`, `computeLeftSqrt`, `computeRightSqrt`) over Q64
  fixed-point arithmetic.

Modelling conventions, each matching the TypeScript `bigint` semantics:

* `bigint` values are modelled as `Int`; `a / b` on `bigint` truncates toward
  zero and is modelled as `Int.tdiv`; `a % b` is modelled as `Int.tmod`.
  TypeScript division by `0n` throws a `RangeError`; `Int.tdiv a 0 = 0` in
  Lean, so every theorem below either establishes or hypothesises that the
  divisors involved are nonzero whenever the quantified domain would otherwise
  allow a zero divisor.
* `throw new Error(...)` is modelled by `Except.error` with one error
  constructor per distinct error message.
* Token decimal counts (TypeScript `number`, used only through `BigInt(d)`
  and `10n ** (..)` with a nonnegative exponent) are modelled as `Nat`.
* The `while (y < x)` loop of the square-root helper is modelled by the
  structurally recursive `sqrtGo` with an explicit fuel argument; the initial
  fuel `value` dominates the initial `x = value`, and `x` strictly decreases
  on every iteration, so the fuel never runs out (this is implicitly proved by
  the floor-square-root correctness theorem below, which could not hold for a
  prematurely terminated iteration).
* `spotPriceWithoutFee` converts prices with `Number(...)` and divides as IEEE
  doubles; it is modelled as exact rational division.  On the reference state
  proved below both prices and their quotient are small powers of two, where
  double arithmetic is exact, so the rational model agrees with the source.
-/

namespace BrownFi

namespace V1

def FEE_DENOMINATOR : Int := 10000

def Q128 : Int := 2 ^ 128

/-- Pool state for `BrownFiPoolMath` (interface `BrownFiPoolState`);
`decimalShift` and `qti` are carried but unused by the quoting formulas. -/
structure BrownFiPoolState where
  reserve0 : Int
  reserve1 : Int
  kappa : Int
  fee : Int
  oraclePrice : Int
  decimalShift : Int
  qti : Int
deriving DecidableEq

/-- The two distinct error messages thrown by `BrownFiPoolMath.swapExactOutput`. -/
inductive QuoteError where
  | insufficientOutputAmount
  | insufficientLiquidity
deriving DecidableEq

/-- `mulDivRoundingUp(a, b, denominator)` from the source: truncated division
of the product, plus one when the truncated remainder is positive. -/
def mulDivRoundingUp (a b denominator : Int) : Int :=
  let product := a * b
  let result := product.tdiv denominator
  if product.tmod denominator > 0 then result + 1 else result

/-- `swapExactInput` of V1: the source returns `amountIn` unchanged. -/
def swapExactInput (_pool : BrownFiPoolState) (_zeroToOne : Bool) (amountIn : Int) : Int :=
  amountIn

/-- `swapExactOutput` of V1.  `pool.kappa || Q128` in the source defaults the
curvature to `Q128` exactly when `kappa` is the falsy value `0n`. -/
def swapExactOutput (pool : BrownFiPoolState) (zeroToOne : Bool) (amountOut : Int) :
    Except QuoteError Int :=
  let reserveIn := if zeroToOne then pool.reserve0 else pool.reserve1
  let reserveOut := if zeroToOne then pool.reserve1 else pool.reserve0
  let oPrice := pool.oraclePrice
  let kappa := if pool.kappa = 0 then Q128 else pool.kappa
  if amountOut ≤ 0 then Except.error QuoteError.insufficientOutputAmount
  else if reserveIn ≤ 0 ∨ reserveOut ≤ 0 then Except.error QuoteError.insufficientLiquidity
  else
    let amountOutWithFee :=
      mulDivRoundingUp amountOut FEE_DENOMINATOR (FEE_DENOMINATOR - pool.fee)
    if amountOutWithFee * 10 ≥ reserveOut * 9 then
      Except.error QuoteError.insufficientOutputAmount
    else
      let r := mulDivRoundingUp kappa amountOutWithFee (reserveOut - amountOutWithFee)
      if zeroToOne then
        let avgPrice := mulDivRoundingUp (Q128 * 2 + r) Q128 (oPrice * 2)
        Except.ok (mulDivRoundingUp amountOutWithFee avgPrice Q128)
      else
        let avgPrice := mulDivRoundingUp oPrice (Q128 * 2 + r) (Q128 * 2)
        Except.ok (mulDivRoundingUp amountOutWithFee avgPrice Q128)

end V1

namespace V2

def PRECISION : Int := 100000000

def DECIMALS : Nat := 18

def Q64 : Int := 2 ^ 64

/-- Pool state for `BrownFiV2PoolMath` (interface `BrownFiV2PoolState`);
the oracle-update fields `updateFee`/`updateFeedData` belong to an external
collaborator and are not consumed by the math, so they are omitted. -/
structure BrownFiV2PoolState where
  reserve0 : Int
  reserve1 : Int
  kappa : Int
  lambda : Int
  fee : Int
  token0Decimals : Nat
  token1Decimals : Nat
  price0 : Int
  price1 : Int
deriving DecidableEq

/-- The distinct error messages thrown by `BrownFiV2PoolMath`. -/
inductive QuoteError where
  | insufficientInputAmount
  | insufficientOutputAmount
  | insufficientLiquidity
  | maxReserveFractionExceeded
deriving DecidableEq

/-- `mulDiv(a, b, denominator)` from the source: truncated division of the
product (`bigint` division truncates toward zero). -/
def mulDiv (a b denominator : Int) : Int :=
  (a * b).tdiv denominator

/-- The body of the `while (y < x)` loop of the source's `sqrt`, with an
explicit fuel argument making the recursion structural.  On every iteration
the next `x` is `y < x`, so `x` strictly decreases and the initial fuel
`value = x₀` is never exhausted. -/
def sqrtGo (value : Nat) : Nat → Nat → Nat → Nat
  | 0, x, _ => x
  | fuel + 1, x, y =>
    if y < x then sqrtGo value fuel y ((value / y + y) / 2) else x

/-- The source's `sqrt` on nonnegative values: `x = value`, `y = (value+1)/2`,
then iterate `x = y; y = (value/x + x)/2` while `y < x`. -/
def sqrtNat (value : Nat) : Nat :=
  if value = 0 then 0 else sqrtGo value value value ((value + 1) / 2)

/-- The source's `sqrt` on `bigint`.  For `value < 0` the initial
`y = (value+1)/2` (truncated toward zero) already satisfies `y ≥ x = value`,
so the loop exits immediately and the source returns `value` itself. -/
def sqrt (value : Int) : Int :=
  if value = 0 then 0
  else if value < 0 then value
  else ((sqrtNat value.toNat : Nat) : Int)

/-- `parseRawToDefaultDecimals` from the source: rescale a raw amount to the
canonical 18-decimal scale, truncating when the token has more decimals. -/
def parseRawToDefaultDecimals (tokenDecimals : Nat) (amount : Int) : Int :=
  if tokenDecimals > DECIMALS then amount.tdiv ((10 : Int) ^ (tokenDecimals - DECIMALS))
  else amount * (10 : Int) ^ (DECIMALS - tokenDecimals)

/-- `parseDefaultDecimalsToRaw` from the source: rescale a canonical-scale
amount back to the token's native decimals, truncating when shrinking. -/
def parseDefaultDecimalsToRaw (tokenDecimals : Nat) (amount : Int) : Int :=
  if tokenDecimals > DECIMALS then amount * (10 : Int) ^ (tokenDecimals - DECIMALS)
  else amount.tdiv ((10 : Int) ^ (DECIMALS - tokenDecimals))

/-- `getSkewnessPrice` from the source. -/
def getSkewnessPrice (priceA priceB reserveA reserveB lambda : Int) : Int × Int :=
  if lambda = 0 then (priceA, priceB)
  else
    let reserveAPrice := reserveA * priceA
    let reserveBPrice := reserveB * priceB
    let reservePriceDiff :=
      if reserveAPrice ≥ reserveBPrice then reserveAPrice - reserveBPrice
      else reserveBPrice - reserveAPrice
    let reservePriceSum := reserveAPrice + reserveBPrice
    let s := mulDiv reservePriceDiff lambda reservePriceSum
    let q64PlusS := Q64 + s
    let q64MinusS := Q64 - s
    if reserveAPrice ≥ reserveBPrice then
      (mulDiv priceA q64MinusS Q64, mulDiv priceB q64PlusS Q64)
    else
      (mulDiv priceA q64PlusS Q64, mulDiv priceB q64MinusS Q64)

/-- `computeLeftNumerator` from the source. -/
def computeLeftNumerator (amountIn priceIn priceOut reserveOut : Int) : Int :=
  priceOut * reserveOut + priceIn * amountIn

/-- `computeLeftSqrt` from the source. -/
def computeLeftSqrt (amountIn priceIn priceOut reserveOut : Int) : Int :=
  let temp :=
    if mulDiv amountIn priceIn Q64 > mulDiv reserveOut priceOut Q64 then
      mulDiv amountIn priceIn Q64 - mulDiv reserveOut priceOut Q64
    else
      mulDiv reserveOut priceOut Q64 - mulDiv amountIn priceIn Q64
  temp * temp

/-- `computeRightSqrt` from the source. -/
def computeRightSqrt (amountIn priceIn priceOut reserveOut k : Int) : Int :=
  mulDiv (priceIn * priceOut) k (Q64 * Q64) * mulDiv (reserveOut * amountIn) 2 Q64

/-- The skew-adjusted `[priceIn, priceOut]` pair exactly as both swap
functions of the source compute it from the pool state and direction. -/
def skewPrices (pool : BrownFiV2PoolState) (zeroToOne : Bool) : Int × Int :=
  getSkewnessPrice
    (if zeroToOne then pool.price0 else pool.price1)
    (if zeroToOne then pool.price1 else pool.price0)
    (parseRawToDefaultDecimals pool.token0Decimals pool.reserve0)
    (parseRawToDefaultDecimals pool.token1Decimals pool.reserve1)
    pool.lambda

/-- `swapExactInput` of V2 (based on `BrownFiV2Library.getAmountOut`).
The source also binds `reserveIn`, but never uses it in this function. -/
def swapExactInput (pool : BrownFiV2PoolState) (zeroToOne : Bool) (amountIn : Int) :
    Except QuoteError Int :=
  if amountIn ≤ 0 then Except.error QuoteError.insufficientInputAmount
  else
    let reserveOut := if zeroToOne then pool.reserve1 else pool.reserve0
    let tokenOutDecimals := if zeroToOne then pool.token1Decimals else pool.token0Decimals
    let tokenInDecimals := if zeroToOne then pool.token0Decimals else pool.token1Decimals
    if reserveOut ≤ 0 then Except.error QuoteError.insufficientLiquidity
    else
      let parsedAmountIn := parseRawToDefaultDecimals tokenInDecimals amountIn
      let parsedReserveOut := parseRawToDefaultDecimals tokenOutDecimals reserveOut
      let priceIn := (skewPrices pool zeroToOne).1
      let priceOut := (skewPrices pool zeroToOne).2
      let amtIn := mulDiv parsedAmountIn PRECISION (PRECISION + pool.fee)
      let amountOut :=
        if pool.kappa = 2 * Q64 then
          mulDiv (parsedReserveOut * amtIn) priceIn
            (priceOut * parsedReserveOut + amtIn * priceIn)
        else
          let leftNumerator := computeLeftNumerator amtIn priceIn priceOut parsedReserveOut
          let leftSqrt := computeLeftSqrt amtIn priceIn priceOut parsedReserveOut
          let rightSqrt := computeRightSqrt amtIn priceIn priceOut parsedReserveOut pool.kappa
          let denominator := mulDiv priceOut (2 * Q64 - pool.kappa) Q64
          let sqrtTerm := sqrt (leftSqrt + rightSqrt)
          (leftNumerator - Q64 * sqrtTerm).tdiv denominator
      Except.ok (parseDefaultDecimalsToRaw tokenOutDecimals amountOut)

/-- `swapExactOutput` of V2 (based on `BrownFiV2Library.getAmountIn`). -/
def swapExactOutput (pool : BrownFiV2PoolState) (zeroToOne : Bool) (amountOut : Int) :
    Except QuoteError Int :=
  if amountOut ≤ 0 then Except.error QuoteError.insufficientOutputAmount
  else
    let reserveOut := if zeroToOne then pool.reserve1 else pool.reserve0
    let tokenOutDecimals := if zeroToOne then pool.token1Decimals else pool.token0Decimals
    let tokenInDecimals := if zeroToOne then pool.token0Decimals else pool.token1Decimals
    if reserveOut ≤ 0 then Except.error QuoteError.insufficientLiquidity
    else if amountOut * 10 ≥ reserveOut * 8 then
      Except.error QuoteError.maxReserveFractionExceeded
    else
      let parsedAmountOut := parseRawToDefaultDecimals tokenOutDecimals amountOut
      let parsedReserveOut := parseRawToDefaultDecimals tokenOutDecimals reserveOut
      let priceIn := (skewPrices pool zeroToOne).1
      let priceOut := (skewPrices pool zeroToOne).2
      let priceImpact :=
        mulDiv (pool.kappa * Q64) parsedAmountOut
          (Q64 * (parsedReserveOut - parsedAmountOut))
      let amountIn :=
        mulDiv parsedAmountOut (mulDiv priceOut (priceImpact + Q64 * 2) priceIn) (Q64 * 2)
      let amountInWithFee := mulDiv amountIn (PRECISION + pool.fee) PRECISION
      Except.ok (parseDefaultDecimalsToRaw tokenInDecimals amountInWithFee)

/-- `spotPriceWithoutFee` of V2, with the IEEE-double `Number(...)` division
modelled as exact rational division (see the header comment). -/
def spotPriceWithoutFee (pool : BrownFiV2PoolState) (zeroToOne : Bool) : ℚ :=
  let prices := getSkewnessPrice pool.price0 pool.price1
    (parseRawToDefaultDecimals pool.token0Decimals pool.reserve0)
    (parseRawToDefaultDecimals pool.token1Decimals pool.reserve1)
    pool.lambda
  if zeroToOne then (prices.1 : ℚ) / (prices.2 : ℚ)
  else (prices.2 : ℚ) / (prices.1 : ℚ)

end V2

namespace Spec

/-- Modelled from the spec (§4.1 FixedPointArithmetic):
`mulDivFloor(a, b, d)` returns `⌊(a·b)/d⌋`. -/
def mulDivFloor (a b d : Int) : Int :=
  (a * b).fdiv d

/-- Modelled from the spec (§4.1 FixedPointArithmetic):
`mulDivCeil(a, b, d)` returns `⌈(a·b)/d⌉`, written via `⌈x/d⌉ = −⌊(−x)/d⌋`. -/
def mulDivCeil (a b d : Int) : Int :=
  -((-(a * b)).fdiv d)

/-- Modelled from the spec (§4.1 FixedPointArithmetic):
`isqrtFloor(v)` returns `⌊√v⌋` (on the nonnegative integers the spec
quantifies over). -/
def isqrtFloor (v : Int) : Int :=
  ((Nat.sqrt v.toNat : Nat) : Int)

/-- Modelled from the spec (§4.1): rescale an amount from `decimals` native
decimals to the canonical 18-decimal scale, flooring when shrinking. -/
def toCanonicalScale (decimals : Nat) (amount : Int) : Int :=
  if decimals > 18 then amount.fdiv ((10 : Int) ^ (decimals - 18))
  else amount * (10 : Int) ^ (18 - decimals)

/-- Modelled from the spec (§4.1): rescale a canonical-scale amount back to
`decimals` native decimals, flooring when shrinking. -/
def fromCanonicalScale (decimals : Nat) (amount : Int) : Int :=
  if decimals > 18 then amount * (10 : Int) ^ (decimals - 18)
  else amount.fdiv ((10 : Int) ^ (18 - decimals))

/-- The V1 `quoteByOutput` formula exactly as claim C3 states it: every
division rounds up, `kappa` defaults to `Q128` when it is `0`. -/
def quoteByOutputV1 (pool : V1.BrownFiPoolState) (zeroToOne : Bool) (amountOut : Int) : Int :=
  let reserveOut := if zeroToOne then pool.reserve1 else pool.reserve0
  let kappa := if pool.kappa = 0 then V1.Q128 else pool.kappa
  let amountOutWithFee := mulDivCeil amountOut 10000 (10000 - pool.fee)
  let r := mulDivCeil kappa amountOutWithFee (reserveOut - amountOutWithFee)
  let avgPrice :=
    if zeroToOne then mulDivCeil (2 * V1.Q128 + r) V1.Q128 (pool.oraclePrice * 2)
    else mulDivCeil pool.oraclePrice (2 * V1.Q128 + r) (2 * V1.Q128)
  mulDivCeil amountOutWithFee avgPrice V1.Q128

/-- The constant-product special case of claim C2
(`kappa = 2·Q64`): `⌊reserveOut·effIn·priceIn/(priceOut·reserveOut + effIn·priceIn)⌋`. -/
def constantProductOut (priceIn priceOut reserveOutCanonical effIn : Int) : Int :=
  mulDivFloor (reserveOutCanonical * effIn) priceIn
    (priceOut * reserveOutCanonical + effIn * priceIn)

/-- The general (quadratic-root) case of claim C2, with every division a
floor division as the claim states. -/
def generalOutFloor (priceIn priceOut reserveOutCanonical effIn kappa : Int) : Int :=
  let leftNumerator := priceOut * reserveOutCanonical + priceIn * effIn
  let leftSqrt :=
    |mulDivFloor effIn priceIn V2.Q64 - mulDivFloor reserveOutCanonical priceOut V2.Q64| ^ 2
  let rightSqrt :=
    mulDivFloor (priceIn * priceOut) kappa (V2.Q64 * V2.Q64) *
      mulDivFloor (reserveOutCanonical * effIn) 2 V2.Q64
  let denominator := mulDivFloor priceOut (2 * V2.Q64 - kappa) V2.Q64
  (leftNumerator - V2.Q64 * isqrtFloor (leftSqrt + rightSqrt)).fdiv denominator

/-- The general case as amended: identical to `generalOutFloor` except that
the `denominator` computation and the final division truncate toward zero
(the code's `bigint` division), which coincides with flooring whenever the
operands are nonnegative. -/
def generalOutTrunc (priceIn priceOut reserveOutCanonical effIn kappa : Int) : Int :=
  let leftNumerator := priceOut * reserveOutCanonical + priceIn * effIn
  let leftSqrt :=
    |mulDivFloor effIn priceIn V2.Q64 - mulDivFloor reserveOutCanonical priceOut V2.Q64| ^ 2
  let rightSqrt :=
    mulDivFloor (priceIn * priceOut) kappa (V2.Q64 * V2.Q64) *
      mulDivFloor (reserveOutCanonical * effIn) 2 V2.Q64
  let denominator := (priceOut * (2 * V2.Q64 - kappa)).tdiv V2.Q64
  (leftNumerator - V2.Q64 * isqrtFloor (leftSqrt + rightSqrt)).tdiv denominator

/-- The V2 `quoteByInput` formula exactly as claim C2 states it: rescale to
canonical scale, obtain the skew-adjusted prices, take the fee off the input,
apply the constant-product form when `kappa = 2·Q64` and otherwise the
quadratic-root form, with every division a floor division, and rescale the
canonical output back to native decimals (flooring when shrinking). -/
def quoteByInputV2 (pool : V2.BrownFiV2PoolState) (zeroToOne : Bool) (amountIn : Int) : Int :=
  let reserveOut := if zeroToOne then pool.reserve1 else pool.reserve0
  let tokenInDecimals := if zeroToOne then pool.token0Decimals else pool.token1Decimals
  let tokenOutDecimals := if zeroToOne then pool.token1Decimals else pool.token0Decimals
  let amountInCanonical := toCanonicalScale tokenInDecimals amountIn
  let reserveOutCanonical := toCanonicalScale tokenOutDecimals reserveOut
  let priceIn := (V2.skewPrices pool zeroToOne).1
  let priceOut := (V2.skewPrices pool zeroToOne).2
  let effIn := mulDivFloor amountInCanonical 100000000 (100000000 + pool.fee)
  let amountOutCanonical :=
    if pool.kappa = 2 * V2.Q64 then
      constantProductOut priceIn priceOut reserveOutCanonical effIn
    else
      generalOutFloor priceIn priceOut reserveOutCanonical effIn pool.kappa
  fromCanonicalScale tokenOutDecimals amountOutCanonical

/-- Claim C2 as amended by the counterexample: identical to `quoteByInputV2`
except that the general-case final division, the general-case `denominator`,
and the final rescale truncate toward zero (they coincide with the claimed
floor divisions whenever their operands are nonnegative, but not on the
negative intermediates the counterexample exhibits). -/
def quoteByInputV2Amended (pool : V2.BrownFiV2PoolState) (zeroToOne : Bool) (amountIn : Int) : Int :=
  let reserveOut := if zeroToOne then pool.reserve1 else pool.reserve0
  let tokenInDecimals := if zeroToOne then pool.token0Decimals else pool.token1Decimals
  let tokenOutDecimals := if zeroToOne then pool.token1Decimals else pool.token0Decimals
  let amountInCanonical := toCanonicalScale tokenInDecimals amountIn
  let reserveOutCanonical := toCanonicalScale tokenOutDecimals reserveOut
  let priceIn := (V2.skewPrices pool zeroToOne).1
  let priceOut := (V2.skewPrices pool zeroToOne).2
  let effIn := mulDivFloor amountInCanonical 100000000 (100000000 + pool.fee)
  let amountOutCanonical :=
    if pool.kappa = 2 * V2.Q64 then
      constantProductOut priceIn priceOut reserveOutCanonical effIn
    else
      generalOutTrunc priceIn priceOut reserveOutCanonical effIn pool.kappa
  V2.parseDefaultDecimalsToRaw tokenOutDecimals amountOutCanonical

end Spec

namespace Deriv

/-! Step-by-step views of the two swap computations, each definitionally the
corresponding intermediate value of the source function; they let theorems
talk about one step at a time. -/

/-- V1 `amountOutWithFee` as computed by `swapExactOutput`. -/
def v1AmountOutWithFee (pool : V1.BrownFiPoolState) (amountOut : Int) : Int :=
  V1.mulDivRoundingUp amountOut V1.FEE_DENOMINATOR (V1.FEE_DENOMINATOR - pool.fee)

/-- V1 `reserveOut` selected by direction. -/
def v1ReserveOut (pool : V1.BrownFiPoolState) (zeroToOne : Bool) : Int :=
  if zeroToOne then pool.reserve1 else pool.reserve0

/-- V1 price-impact term `r` as computed by `swapExactOutput`. -/
def v1PriceImpact (pool : V1.BrownFiPoolState) (zeroToOne : Bool) (amountOut : Int) : Int :=
  V1.mulDivRoundingUp (if pool.kappa = 0 then V1.Q128 else pool.kappa)
    (v1AmountOutWithFee pool amountOut)
    (v1ReserveOut pool zeroToOne - v1AmountOutWithFee pool amountOut)

/-- V1 `avgPrice` as computed by `swapExactOutput` in each direction. -/
def v1AvgPrice (pool : V1.BrownFiPoolState) (zeroToOne : Bool) (amountOut : Int) : Int :=
  if zeroToOne then
    V1.mulDivRoundingUp (V1.Q128 * 2 + v1PriceImpact pool zeroToOne amountOut) V1.Q128
      (pool.oraclePrice * 2)
  else
    V1.mulDivRoundingUp pool.oraclePrice (V1.Q128 * 2 + v1PriceImpact pool zeroToOne amountOut)
      (V1.Q128 * 2)

/-- V1 `amountIn` as returned by `swapExactOutput` on the non-error path. -/
def v1AmountIn (pool : V1.BrownFiPoolState) (zeroToOne : Bool) (amountOut : Int) : Int :=
  V1.mulDivRoundingUp (v1AmountOutWithFee pool amountOut) (v1AvgPrice pool zeroToOne amountOut)
    V1.Q128

/-- V2 input-token decimals selected by direction. -/
def v2TokenInDecimals (pool : V2.BrownFiV2PoolState) (zeroToOne : Bool) : Nat :=
  if zeroToOne then pool.token0Decimals else pool.token1Decimals

/-- V2 output-token decimals selected by direction. -/
def v2TokenOutDecimals (pool : V2.BrownFiV2PoolState) (zeroToOne : Bool) : Nat :=
  if zeroToOne then pool.token1Decimals else pool.token0Decimals

/-- V2 `reserveOut` selected by direction. -/
def v2ReserveOut (pool : V2.BrownFiV2PoolState) (zeroToOne : Bool) : Int :=
  if zeroToOne then pool.reserve1 else pool.reserve0

/-- V2 `parsedAmountOut` as computed by `swapExactOutput`. -/
def v2ParsedAmountOut (pool : V2.BrownFiV2PoolState) (zeroToOne : Bool) (amountOut : Int) : Int :=
  V2.parseRawToDefaultDecimals (v2TokenOutDecimals pool zeroToOne) amountOut

/-- V2 `parsedReserveOut` as computed by both swap functions. -/
def v2ParsedReserveOut (pool : V2.BrownFiV2PoolState) (zeroToOne : Bool) : Int :=
  V2.parseRawToDefaultDecimals (v2TokenOutDecimals pool zeroToOne) (v2ReserveOut pool zeroToOne)

/-- V2 `priceImpact` as computed by `swapExactOutput`. -/
def v2PriceImpact (pool : V2.BrownFiV2PoolState) (zeroToOne : Bool) (amountOut : Int) : Int :=
  V2.mulDiv (pool.kappa * V2.Q64) (v2ParsedAmountOut pool zeroToOne amountOut)
    (V2.Q64 * (v2ParsedReserveOut pool zeroToOne - v2ParsedAmountOut pool zeroToOne amountOut))

/-- V2 `amountIn` before the fee step, as computed by `swapExactOutput`. -/
def v2AmountInNoFee (pool : V2.BrownFiV2PoolState) (zeroToOne : Bool) (amountOut : Int) : Int :=
  V2.mulDiv (v2ParsedAmountOut pool zeroToOne amountOut)
    (V2.mulDiv (V2.skewPrices pool zeroToOne).2
      (v2PriceImpact pool zeroToOne amountOut + V2.Q64 * 2) (V2.skewPrices pool zeroToOne).1)
    (V2.Q64 * 2)

/-- V2 `amountIn` after the fee step, as computed by `swapExactOutput`. -/
def v2AmountIn (pool : V2.BrownFiV2PoolState) (zeroToOne : Bool) (amountOut : Int) : Int :=
  V2.mulDiv (v2AmountInNoFee pool zeroToOne amountOut) (V2.PRECISION + pool.fee) V2.PRECISION

/-- V2 `swapExactOutput`'s return value on the non-error path. -/
def v2QuoteOut (pool : V2.BrownFiV2PoolState) (zeroToOne : Bool) (amountOut : Int) : Int :=
  V2.parseDefaultDecimalsToRaw (v2TokenInDecimals pool zeroToOne)
    (v2AmountIn pool zeroToOne amountOut)

/-- V2 `parsedAmountIn` as computed by `swapExactInput`. -/
def v2ParsedAmountIn (pool : V2.BrownFiV2PoolState) (zeroToOne : Bool) (amountIn : Int) : Int :=
  V2.parseRawToDefaultDecimals (v2TokenInDecimals pool zeroToOne) amountIn

/-- V2 `_amountIn` net of fee, as computed by `swapExactInput`. -/
def v2EffIn (pool : V2.BrownFiV2PoolState) (zeroToOne : Bool) (amountIn : Int) : Int :=
  V2.mulDiv (v2ParsedAmountIn pool zeroToOne amountIn) V2.PRECISION
    (V2.PRECISION + pool.fee)

/-- V2 `swapExactInput`'s constant-product-case canonical output. -/
def v2OutSpecial (pool : V2.BrownFiV2PoolState) (zeroToOne : Bool) (amountIn : Int) : Int :=
  V2.mulDiv (v2ParsedReserveOut pool zeroToOne * v2EffIn pool zeroToOne amountIn)
    (V2.skewPrices pool zeroToOne).1
    ((V2.skewPrices pool zeroToOne).2 * v2ParsedReserveOut pool zeroToOne +
      v2EffIn pool zeroToOne amountIn * (V2.skewPrices pool zeroToOne).1)

/-- V2 `swapExactInput`'s general-case canonical output. -/
def v2OutGeneral (pool : V2.BrownFiV2PoolState) (zeroToOne : Bool) (amountIn : Int) : Int :=
  (V2.computeLeftNumerator (v2EffIn pool zeroToOne amountIn) (V2.skewPrices pool zeroToOne).1
      (V2.skewPrices pool zeroToOne).2 (v2ParsedReserveOut pool zeroToOne) -
    V2.Q64 * V2.sqrt
      (V2.computeLeftSqrt (v2EffIn pool zeroToOne amountIn) (V2.skewPrices pool zeroToOne).1
          (V2.skewPrices pool zeroToOne).2 (v2ParsedReserveOut pool zeroToOne) +
        V2.computeRightSqrt (v2EffIn pool zeroToOne amountIn) (V2.skewPrices pool zeroToOne).1
          (V2.skewPrices pool zeroToOne).2 (v2ParsedReserveOut pool zeroToOne) pool.kappa)).tdiv
    (V2.mulDiv (V2.skewPrices pool zeroToOne).2 (2 * V2.Q64 - pool.kappa) V2.Q64)

/-- V2 `swapExactInput`'s return value on the non-error path. -/
def v2QuoteIn (pool : V2.BrownFiV2PoolState) (zeroToOne : Bool) (amountIn : Int) : Int :=
  V2.parseDefaultDecimalsToRaw (v2TokenOutDecimals pool zeroToOne)
    (if pool.kappa = 2 * V2.Q64 then v2OutSpecial pool zeroToOne amountIn
     else v2OutGeneral pool zeroToOne amountIn)

end Deriv

/-- A V2 pool state on which claim C2's floor-division reading diverges from
the code's truncating division: the general-case numerator is `-1` with a
positive denominator, so flooring gives `-1` while the code returns `0`.
Fields: reserves `1 / 2^64`, `kappa = 33090758686999542736 ≠ 2·Q64`,
`lambda = 0`, `fee = 0`, both tokens 18 decimals, both prices `2^64 − 1`. -/
def c2Pool : V2.BrownFiV2PoolState :=
  ⟨1, 18446744073709551616, 33090758686999542736, 0, 0, 18, 18,
    18446744073709551615, 18446744073709551615⟩

/-- A V2 pool state with a non-positive input-side reserve (`reserve0 = 0`)
and a positive output-side reserve, refuting claim C5 for V2 `quoteByInput`:
the source checks only `reserveOut`. -/
def c5Pool : V2.BrownFiV2PoolState :=
  ⟨0, 200000000000000000000, 2 * V2.Q64, 0, 250000, 18, 18, 2 * V2.Q64, V2.Q64⟩

/-- A V1 pool state with a non-positive reserve, for the C5 witness. -/
def c5PoolV1 : V1.BrownFiPoolState :=
  ⟨0, 200000000000000000000, 2 * V1.Q128, 25, 2 * V1.Q128, 0, 0⟩

/-- A V2 pool state with a non-positive output-side reserve (`reserve1 = 0`
for the zero-to-one direction), for the C5 witness. -/
def c5PoolV2Out : V2.BrownFiV2PoolState :=
  ⟨100000000000000000000, 0, 2 * V2.Q64, 0, 250000, 18, 18, 2 * V2.Q64, V2.Q64⟩

/-- A V1 pool state with a huge oracle price on which `swapExactOutput` maps
the distinct in-domain amounts `1` and `2` to the same required input,
refuting strict monotonicity (claim C9). -/
def c9PoolV1 : V1.BrownFiPoolState :=
  ⟨10 ^ 30, 10 ^ 30, 2 * V1.Q128, 25, 1000000 * V1.Q128, 0, 0⟩

/-- A V2 pool state with a huge input price on which `swapExactOutput` maps
the distinct in-domain amounts `1` and `2` both to `0`, refuting strict
monotonicity (claim C9). -/
def c9PoolV2Out : V2.BrownFiV2PoolState :=
  ⟨10 ^ 30, 10 ^ 30, V2.Q64, 0, 0, 18, 18, 1000000 * V2.Q64, 1⟩

/-- A V2 pool state with `kappa = Q64 ≠ 2·Q64` on which `swapExactInput` is
not even weakly monotone: increasing the input by one decreases the output
(claim C9's general case). -/
def c9PoolV2In : V2.BrownFiV2PoolState :=
  ⟨100000000000000000000, 18446744073709551617, V2.Q64, 0, 0, 18, 18,
    18446744073709551615, 2⟩

/-- A V2 pool state whose output token has 19 decimals, on which
`swapExactOutput`'s raw 80% check passes while the canonical-scale reserve
and amount collapse to the same value (claim C10's second part). -/
def c10Pool : V2.BrownFiV2PoolState :=
  ⟨1, 19, 2 * V2.Q64, 0, 0, 18, 19, V2.Q64, V2.Q64⟩

/-- The V1 reference pool state of `BrownFiPoolMath.test.ts`:
reserves `100e18 / 200e18`, `kappa = 2·Q128`, `oraclePrice = 2·Q128`,
`fee = 25`, with the unused `decimalShift` and `qti` fields set to `0`. -/
def referencePoolV1 : V1.BrownFiPoolState :=
  ⟨100000000000000000000, 200000000000000000000, 2 * V1.Q128, 25, 2 * V1.Q128, 0, 0⟩

/-- The V2 reference pool state of `BrownFiV2PoolMath.test.ts`:
reserves `100e18 / 200e18`, `kappa = 2·Q64`, `lambda = 0`, `fee = 250000`,
both tokens with 18 decimals, `price0 = 2·Q64`, `price1 = 1·Q64`. -/
def referencePoolV2 : V2.BrownFiV2PoolState :=
  ⟨100000000000000000000, 200000000000000000000, 2 * V2.Q64, 0, 250000, 18, 18,
    2 * V2.Q64, V2.Q64⟩

/-! ### Arithmetic helper lemmas -/

theorem ediv_bounds (x d : Int) (hd : 0 < d) : d * (x / d) ≤ x ∧ x < d * (x / d + 1) := by
  have h0 := Int.ediv_add_emod x d
  have h1 := Int.emod_nonneg x (ne_of_gt hd)
  have h2 := Int.emod_lt_of_pos x hd
  constructor <;> nlinarith

theorem tdiv_eq_fdiv (x d : Int) (hx : 0 ≤ x) (hd : 0 ≤ d) : x.tdiv d = x.fdiv d := by
  rw [Int.tdiv_eq_ediv hx hd, Int.fdiv_eq_ediv x hd]

theorem tdiv_bounds (x d : Int) (hx : 0 ≤ x) (hd : 0 < d) :
    d * x.tdiv d ≤ x ∧ x < d * (x.tdiv d + 1) := by
  rw [Int.tdiv_eq_ediv hx hd.le]
  exact ediv_bounds x d hd

theorem neg_tmod (a b : Int) : (-a).tmod b = -a.tmod b := by
  have h1 := Int.tdiv_add_tmod a b
  have h2 := Int.tdiv_add_tmod (-a) b
  rw [Int.neg_tdiv] at h2
  linarith

theorem mulDivRoundingUp_eq_mulDivCeil (a b d : Int) (hd : 0 < d) :
    V1.mulDivRoundingUp a b d = Spec.mulDivCeil a b d := by
  unfold V1.mulDivRoundingUp Spec.mulDivCeil
  show (if (a * b).tmod d > 0 then (a * b).tdiv d + 1 else (a * b).tdiv d) =
    -((-(a * b)).fdiv d)
  rcases le_or_lt 0 (a * b) with hp | hp
  · rw [Int.tdiv_eq_ediv hp hd.le, Int.tmod_eq_emod hp hd.le, Int.fdiv_eq_ediv _ hd.le]
    have h0 := Int.ediv_add_emod (a * b) d
    have h1 := Int.emod_nonneg (a * b) (ne_of_gt hd)
    have h2 := Int.emod_lt_of_pos (a * b) hd
    by_cases hr : a * b % d = 0
    · have hneg : -(a * b) / d = -(a * b / d) :=
        ((@Int.ediv_emod_unique (-(a * b)) d 0 (-(a * b / d)) hd).mpr
          ⟨by nlinarith, le_refl 0, hd⟩).1
      rw [if_neg (by omega), hneg, neg_neg]
    · have hrpos : 0 < a * b % d := lt_of_le_of_ne h1 (Ne.symm hr)
      have hneg : -(a * b) / d = -(a * b / d) - 1 :=
        ((@Int.ediv_emod_unique (-(a * b)) d (d - a * b % d) (-(a * b / d) - 1) hd).mpr
          ⟨by nlinarith, by omega, by omega⟩).1
      rw [if_pos hrpos, hneg]
      ring
  · have hnp : (0 : Int) ≤ -(a * b) := by omega
    have ht : (a * b).tdiv d = -((-(a * b)).tdiv d) := by
      rw [← Int.neg_tdiv, neg_neg]
    have hm : (a * b).tmod d = -((-(a * b)).tmod d) := by
      rw [← neg_tmod, neg_neg]
    have hmn := Int.tmod_nonneg d hnp
    rw [if_neg (by omega), ht, Int.tdiv_eq_ediv hnp hd.le, Int.fdiv_eq_ediv _ hd.le]

theorem mulDivCeil_bounds (a b d : Int) (hd : 0 < d) :
    d * (Spec.mulDivCeil a b d - 1) < a * b ∧ a * b ≤ d * Spec.mulDivCeil a b d := by
  unfold Spec.mulDivCeil
  rw [Int.fdiv_eq_ediv _ hd.le]
  have h := ediv_bounds (-(a * b)) d hd
  constructor <;> nlinarith [h.1, h.2]

theorem mulDivCeil_nonneg (a b d : Int) (hab : 0 ≤ a * b) (hd : 0 < d) :
    0 ≤ Spec.mulDivCeil a b d := by
  have h := (mulDivCeil_bounds a b d hd).2
  nlinarith

theorem mulDivCeil_pos (a b d : Int) (hab : 0 < a * b) (hd : 0 < d) :
    0 < Spec.mulDivCeil a b d := by
  have h := (mulDivCeil_bounds a b d hd).2
  nlinarith

theorem mulDivCeil_mono (a1 b1 a2 b2 d1 d2 : Int) (hd1 : 0 < d1) (hd2 : 0 < d2)
    (h : a1 * b1 * d2 ≤ a2 * b2 * d1) :
    Spec.mulDivCeil a1 b1 d1 ≤ Spec.mulDivCeil a2 b2 d2 := by
  have c1 := (mulDivCeil_bounds a1 b1 d1 hd1).1
  have c2 := (mulDivCeil_bounds a2 b2 d2 hd2).2
  by_contra hlt
  push_neg at hlt
  have hle : Spec.mulDivCeil a2 b2 d2 ≤ Spec.mulDivCeil a1 b1 d1 - 1 := by omega
  nlinarith [mul_le_mul_of_nonneg_left hle hd2.le]

theorem tdiv_mono_cross (n1 d1 n2 d2 : Int) (hn1 : 0 ≤ n1) (hd1 : 0 < d1) (hd2 : 0 < d2)
    (h : n1 * d2 ≤ n2 * d1) : n1.tdiv d1 ≤ n2.tdiv d2 := by
  have hn2 : 0 ≤ n2 := by nlinarith
  have b1 := tdiv_bounds n1 d1 hn1 hd1
  have b2 := tdiv_bounds n2 d2 hn2 hd2
  by_contra hlt
  push_neg at hlt
  have hle : n2.tdiv d2 + 1 ≤ n1.tdiv d1 := by omega
  nlinarith [mul_le_mul_of_nonneg_left hle hd2.le]

theorem mulDivFloor_nonneg (a b d : Int) (hab : 0 ≤ a * b) (hd : 0 ≤ d) :
    0 ≤ Spec.mulDivFloor a b d := by
  unfold Spec.mulDivFloor
  rw [← tdiv_eq_fdiv _ _ hab hd]
  exact Int.tdiv_nonneg hab hd

theorem parseRaw_eq_toCanonical (d : Nat) (x : Int) (hx : 0 ≤ x) :
    V2.parseRawToDefaultDecimals d x = Spec.toCanonicalScale d x := by
  unfold V2.parseRawToDefaultDecimals Spec.toCanonicalScale V2.DECIMALS
  by_cases hd : d > 18
  · rw [if_pos hd, if_pos hd, tdiv_eq_fdiv _ _ hx (by positivity)]
  · rw [if_neg hd, if_neg hd]

theorem parseRaw_nonneg (d : Nat) (x : Int) (hx : 0 ≤ x) :
    0 ≤ V2.parseRawToDefaultDecimals d x := by
  unfold V2.parseRawToDefaultDecimals
  by_cases hd : d > V2.DECIMALS
  · rw [if_pos hd]
    exact Int.tdiv_nonneg hx (by positivity)
  · rw [if_neg hd]
    exact mul_nonneg hx (by positivity)

theorem parseRaw_mono (d : Nat) (x y : Int) (hx : 0 ≤ x) (hxy : x ≤ y) :
    V2.parseRawToDefaultDecimals d x ≤ V2.parseRawToDefaultDecimals d y := by
  unfold V2.parseRawToDefaultDecimals
  by_cases hd : d > V2.DECIMALS
  · rw [if_pos hd, if_pos hd]
    have hp : (0 : Int) < 10 ^ (d - V2.DECIMALS) := by positivity
    exact tdiv_mono_cross x _ y _ hx hp hp (by nlinarith)
  · rw [if_neg hd, if_neg hd]
    exact mul_le_mul_of_nonneg_right hxy (by positivity)

theorem parseRaw_pos (d : Nat) (x : Int) (hd : d ≤ 18) (hx : 0 < x) :
    0 < V2.parseRawToDefaultDecimals d x := by
  unfold V2.parseRawToDefaultDecimals
  rw [if_neg (by unfold V2.DECIMALS; omega)]
  positivity

theorem parseRaw_lt (d : Nat) (x y : Int) (hd : d ≤ 18) (hxy : x < y) :
    V2.parseRawToDefaultDecimals d x < V2.parseRawToDefaultDecimals d y := by
  unfold V2.parseRawToDefaultDecimals
  rw [if_neg (by unfold V2.DECIMALS; omega), if_neg (by unfold V2.DECIMALS; omega)]
  exact mul_lt_mul_of_pos_right hxy (by positivity)

theorem parseBack_mono (d : Nat) (x y : Int) (hx : 0 ≤ x) (hxy : x ≤ y) :
    V2.parseDefaultDecimalsToRaw d x ≤ V2.parseDefaultDecimalsToRaw d y := by
  unfold V2.parseDefaultDecimalsToRaw
  by_cases hd : d > V2.DECIMALS
  · rw [if_pos hd, if_pos hd]
    exact mul_le_mul_of_nonneg_right hxy (by positivity)
  · rw [if_neg hd, if_neg hd]
    have hp : (0 : Int) < 10 ^ (V2.DECIMALS - d) := by positivity
    exact tdiv_mono_cross x _ y _ hx hp hp (by nlinarith)

theorem if_sub_mul_self_eq_abs_sq (a b : Int) :
    (if a > b then a - b else b - a) * (if a > b then a - b else b - a) = |a - b| ^ 2 := by
  rcases lt_or_le b a with h | h
  · rw [if_pos h, abs_of_pos (sub_pos.2 h)]
    ring
  · rw [if_neg (not_lt.2 h), abs_of_nonpos (sub_nonpos.2 h)]
    ring

/-! ### Floor square root: the source's Babylonian loop computes `Nat.sqrt` -/

theorem sqrt_le_iter (v x : Nat) (hx : 1 ≤ x) : Nat.sqrt v ≤ (v / x + x) / 2 := by
  by_contra hcon
  push_neg at hcon
  have h2 : v / x + x < Nat.sqrt v * 2 := (Nat.div_lt_iff_lt_mul (by norm_num)).1 hcon
  have hq := Nat.div_add_mod v x
  have hm : v % x < x := Nat.mod_lt _ hx
  have hsv : Nat.sqrt v * Nat.sqrt v ≤ v := Nat.sqrt_le v
  zify at h2 hq hm hsv hx
  nlinarith [sq_nonneg ((Nat.sqrt v : Int) - (x : Int))]

theorem iter_exit_sq_le (v x : Nat) (hx : 1 ≤ x) (hle : x ≤ (v / x + x) / 2) : x * x ≤ v := by
  have h1 : x * 2 ≤ v / x + x := (Nat.le_div_iff_mul_le (by norm_num)).1 hle
  have h2 : x ≤ v / x := by omega
  exact (Nat.le_div_iff_mul_le (by omega)).1 h2

theorem sqrtGo_eq_sqrt (v : Nat) (hv : 1 ≤ v) :
    ∀ fuel x, x ≤ fuel → 1 ≤ x → Nat.sqrt v ≤ x →
      V2.sqrtGo v fuel x ((v / x + x) / 2) = Nat.sqrt v := by
  intro fuel
  induction fuel with
  | zero => intro x hxf hx1 _; exact absurd (le_trans hx1 hxf) (by norm_num)
  | succ fuel ih =>
    intro x hxf hx1 hsx
    rw [V2.sqrtGo]
    by_cases hlt : (v / x + x) / 2 < x
    · rw [if_pos hlt]
      have hsy : Nat.sqrt v ≤ (v / x + x) / 2 := sqrt_le_iter v x hx1
      have hy1 : 1 ≤ (v / x + x) / 2 :=
        le_trans (Nat.sqrt_pos.2 (by omega)) hsy
      exact ih ((v / x + x) / 2) (by omega) hy1 hsy
    · rw [if_neg hlt]
      push_neg at hlt
      have hxle : x ≤ Nat.sqrt v := Nat.le_sqrt.2 (iter_exit_sq_le v x hx1 hlt)
      omega

theorem sqrtNat_eq_sqrt (v : Nat) : V2.sqrtNat v = Nat.sqrt v := by
  unfold V2.sqrtNat
  by_cases h0 : v = 0
  · simp [h0]
  · have hv : 1 ≤ v := by omega
    have hstep : (v + 1) / 2 = (v / v + v) / 2 := by
      rw [Nat.div_self (by omega), Nat.add_comm]
    rw [if_neg h0, hstep]
    exact sqrtGo_eq_sqrt v hv v v le_rfl hv (Nat.sqrt_le_self v)

theorem sqrt_eq_isqrtFloor (v : Int) (hv : 0 ≤ v) : V2.sqrt v = Spec.isqrtFloor v := by
  unfold V2.sqrt Spec.isqrtFloor
  by_cases h0 : v = 0
  · simp [h0]
  · rw [if_neg h0, if_neg (by omega), sqrtNat_eq_sqrt]

theorem isqrtFloor_eq_of_bounds (v : Int) (r : Nat)
    (h1 : r * r ≤ v.toNat) (h2 : v.toNat < (r + 1) * (r + 1)) :
    Spec.isqrtFloor v = (r : Int) := by
  unfold Spec.isqrtFloor
  rw [← Nat.eq_sqrt.mpr ⟨h1, h2⟩]

set_option maxRecDepth 100000 in
/-- C1: on the V1 reference pool, `swapExactOutput` with amount `10e18`
returns exactly `5277044854881266492` (zeroToOne) and `22284122562674094710`
(oneToZero); on the V2 reference pool, `swapExactInput` with `10e18` returns
exactly `18140589569160997731` (zeroToOne) and `4750593824228028503`
(oneToZero), `swapExactOutput` returns exactly `5276315789473684210`
(zeroToOne) and `22277777777777777776` (oneToZero), and `spotPriceWithoutFee`
returns `2` (zeroToOne) and `1/2` (oneToZero). -/
theorem c1_reference_vectors :
    V1.swapExactOutput referencePoolV1 true (10 * 10 ^ 18) =
        Except.ok 5277044854881266492 ∧
    V1.swapExactOutput referencePoolV1 false (10 * 10 ^ 18) =
        Except.ok 22284122562674094710 ∧
    V2.swapExactInput referencePoolV2 true (10 * 10 ^ 18) =
        Except.ok 18140589569160997731 ∧
    V2.swapExactInput referencePoolV2 false (10 * 10 ^ 18) =
        Except.ok 4750593824228028503 ∧
    V2.swapExactOutput referencePoolV2 true (10 * 10 ^ 18) =
        Except.ok 5276315789473684210 ∧
    V2.swapExactOutput referencePoolV2 false (10 * 10 ^ 18) =
        Except.ok 22277777777777777776 ∧
    V2.spotPriceWithoutFee referencePoolV2 true = 2 ∧
    V2.spotPriceWithoutFee referencePoolV2 false = 1 / 2 := by
  have hsp : V2.getSkewnessPrice referencePoolV2.price0 referencePoolV2.price1
      (V2.parseRawToDefaultDecimals referencePoolV2.token0Decimals referencePoolV2.reserve0)
      (V2.parseRawToDefaultDecimals referencePoolV2.token1Decimals referencePoolV2.reserve1)
      referencePoolV2.lambda = (2 * V2.Q64, V2.Q64) := rfl
  refine ⟨rfl, rfl, rfl, rfl, rfl, rfl, ?_, ?_⟩ <;>
    · simp only [V2.spotPriceWithoutFee, hsp]
      norm_num [V2.Q64]

/-- C6: the V2 integer square root terminates (it is a total function),
returns `0` on `0`, and for every nonnegative `v` its result `r` satisfies
`r² ≤ v < (r+1)²`, hence it is exact on perfect squares. -/
theorem c6_sqrt_correct :
    V2.sqrt 0 = 0 ∧ ∀ v : Int, 0 ≤ v → (V2.sqrt v) ^ 2 ≤ v ∧ v < (V2.sqrt v + 1) ^ 2 := by
  refine ⟨rfl, fun v hv => ?_⟩
  rw [sqrt_eq_isqrtFloor v hv]
  unfold Spec.isqrtFloor
  have h1 := Nat.sqrt_le v.toNat
  have h2 := Nat.lt_succ_sqrt v.toNat
  have hv' : ((v.toNat : Nat) : Int) = v := Int.toNat_of_nonneg hv
  constructor
  · calc ((Nat.sqrt v.toNat : Nat) : Int) ^ 2
        = ((Nat.sqrt v.toNat * Nat.sqrt v.toNat : Nat) : Int) := by push_cast; ring
      _ ≤ ((v.toNat : Nat) : Int) := by exact_mod_cast h1
      _ = v := hv'
  · calc v = ((v.toNat : Nat) : Int) := hv'.symm
      _ < (((Nat.sqrt v.toNat + 1) * (Nat.sqrt v.toNat + 1) : Nat) : Int) := by
          exact_mod_cast h2
      _ = (((Nat.sqrt v.toNat : Nat) : Int) + 1) ^ 2 := by push_cast; ring

/-- Witness for C6 at `v = 10`. -/
theorem c6_sqrt_correct_witness :
    (0 : Int) ≤ 10 ∧ (V2.sqrt 10) ^ 2 ≤ 10 ∧ (10 : Int) < (V2.sqrt 10 + 1) ^ 2 :=
  ⟨by norm_num, c6_sqrt_correct.2 10 (by norm_num)⟩

/-- C8: for every V1 pool state, direction, and amount (including zero and
negative values), V1 `swapExactInput` returns its amount argument unchanged
and never fails. -/
theorem c8_v1_quoteByInput_identity :
    ∀ (pool : V1.BrownFiPoolState) (zeroToOne : Bool) (amountIn : Int),
      V1.swapExactInput pool zeroToOne amountIn = amountIn :=
  fun _ _ _ => rfl

/-- C7: `getSkewnessPrice` returns its price inputs unchanged when
`lambda = 0`, and also, for every `lambda`, when the notional values are
exactly balanced (`reserveA·priceA = reserveB·priceB`).  The nonzero-sum
hypothesis in the balanced case excludes the degenerate all-zero-notional
state, where the source's `0n / 0n` throws a `RangeError` instead of
returning. -/
theorem c7_skew_identity :
    (∀ priceA priceB reserveA reserveB : Int,
        V2.getSkewnessPrice priceA priceB reserveA reserveB 0 = (priceA, priceB)) ∧
    (∀ priceA priceB reserveA reserveB lambda : Int,
        reserveA * priceA = reserveB * priceB →
        reserveA * priceA + reserveB * priceB ≠ 0 →
        V2.getSkewnessPrice priceA priceB reserveA reserveB lambda = (priceA, priceB)) := by
  have hQ : V2.Q64 ≠ 0 := by unfold V2.Q64; norm_num
  constructor
  · intro pA pB rA rB
    simp [V2.getSkewnessPrice]
  · intro pA pB rA rB lam hbal _hsum
    by_cases hl : lam = 0
    · simp [V2.getSkewnessPrice, hl]
    · unfold V2.getSkewnessPrice
      rw [if_neg hl]
      simp only [hbal, ge_iff_le, le_refl, if_true, sub_self, V2.mulDiv, zero_mul,
        Int.zero_tdiv, sub_zero, add_zero]
      rw [Int.mul_tdiv_cancel pA hQ, Int.mul_tdiv_cancel pB hQ]

/-- Witness for C7: the `lambda = 0` part at `(5, 7, 3, 11)` and the
balanced part at `priceA = 2, priceB = 3, reserveA = 3, reserveB = 2,
lambda = 9`. -/
theorem c7_skew_identity_witness :
    V2.getSkewnessPrice 5 7 3 11 0 = (5, 7) ∧
    ((3 : Int) * 2 = 2 * 3 ∧ (3 : Int) * 2 + 2 * 3 ≠ 0 ∧
      V2.getSkewnessPrice 2 3 3 2 9 = (2, 3)) :=
  ⟨c7_skew_identity.1 5 7 3 11,
    by norm_num, by norm_num,
    c7_skew_identity.2 2 3 3 2 9 (by norm_num) (by norm_num)⟩

/-- C10: when the output token has at most 18 native decimals and
`swapExactOutput`'s validations pass (`0 < amountOut`, `0 < reserveOut`,
`amountOut·10 < reserveOut·8` on raw amounts), the canonical-scale reserve
strictly exceeds the canonical-scale amount, so the price-impact denominator
`Q64·(parsedReserveOut − parsedAmountOut)` is strictly positive; and this is
not implied by the checks for a token with more than 18 decimals, witnessed
by `c10Pool` (19 decimals), where the checks pass yet the two parsed values
coincide. -/
theorem c10_priceImpact_denominator :
    (∀ (pool : V2.BrownFiV2PoolState) (zeroToOne : Bool) (amountOut : Int),
        (if zeroToOne then pool.token1Decimals else pool.token0Decimals) ≤ 18 →
        0 < amountOut →
        0 < (if zeroToOne then pool.reserve1 else pool.reserve0) →
        amountOut * 10 < (if zeroToOne then pool.reserve1 else pool.reserve0) * 8 →
        V2.parseRawToDefaultDecimals
            (if zeroToOne then pool.token1Decimals else pool.token0Decimals) amountOut <
          V2.parseRawToDefaultDecimals
            (if zeroToOne then pool.token1Decimals else pool.token0Decimals)
            (if zeroToOne then pool.reserve1 else pool.reserve0) ∧
        0 < V2.Q64 *
          (V2.parseRawToDefaultDecimals
              (if zeroToOne then pool.token1Decimals else pool.token0Decimals)
              (if zeroToOne then pool.reserve1 else pool.reserve0) -
            V2.parseRawToDefaultDecimals
              (if zeroToOne then pool.token1Decimals else pool.token0Decimals) amountOut)) ∧
    (0 < (10 : Int) ∧ 0 < c10Pool.reserve1 ∧ (10 : Int) * 10 < c10Pool.reserve1 * 8 ∧
      V2.parseRawToDefaultDecimals c10Pool.token1Decimals 10 =
        V2.parseRawToDefaultDecimals c10Pool.token1Decimals c10Pool.reserve1) := by
  constructor
  · intro pool zeroToOne amountOut hd ha hr hcap
    set d := if zeroToOne then pool.token1Decimals else pool.token0Decimals with hdd
    set rOut := if zeroToOne then pool.reserve1 else pool.reserve0 with hrr
    have hnot : ¬ d > V2.DECIMALS := by
      unfold V2.DECIMALS; omega
    have hpow : (0 : Int) < (10 : Int) ^ (V2.DECIMALS - d) := by positivity
    have har : amountOut < rOut := by omega
    have hparse : V2.parseRawToDefaultDecimals d amountOut <
        V2.parseRawToDefaultDecimals d rOut := by
      unfold V2.parseRawToDefaultDecimals
      rw [if_neg hnot, if_neg hnot]
      exact mul_lt_mul_of_pos_right har hpow
    refine ⟨hparse, ?_⟩
    have hQ : (0 : Int) < V2.Q64 := by unfold V2.Q64; positivity
    exact mul_pos hQ (by omega)
  · exact ⟨by norm_num, by norm_num [c10Pool], by norm_num [c10Pool], by decide⟩

/-- Witness for C10's universal part at the V2 reference pool with
`amountOut = 10¹⁸`. -/
theorem c10_priceImpact_denominator_witness :
    ((if true then referencePoolV2.token1Decimals else referencePoolV2.token0Decimals) ≤ 18 ∧
      (0 : Int) < 10 ^ 18 ∧
      0 < (if true then referencePoolV2.reserve1 else referencePoolV2.reserve0) ∧
      (10 : Int) ^ 18 * 10 <
        (if true then referencePoolV2.reserve1 else referencePoolV2.reserve0) * 8) ∧
    V2.parseRawToDefaultDecimals
        (if true then referencePoolV2.token1Decimals else referencePoolV2.token0Decimals)
        (10 ^ 18) <
      V2.parseRawToDefaultDecimals
        (if true then referencePoolV2.token1Decimals else referencePoolV2.token0Decimals)
        (if true then referencePoolV2.reserve1 else referencePoolV2.reserve0) ∧
    0 < V2.Q64 *
      (V2.parseRawToDefaultDecimals
          (if true then referencePoolV2.token1Decimals else referencePoolV2.token0Decimals)
          (if true then referencePoolV2.reserve1 else referencePoolV2.reserve0) -
        V2.parseRawToDefaultDecimals
          (if true then referencePoolV2.token1Decimals else referencePoolV2.token0Decimals)
          (10 ^ 18)) :=
  ⟨⟨by decide, by norm_num, by decide, by decide⟩,
    c10_priceImpact_denominator.1 referencePoolV2 true (10 ^ 18)
      (by decide) (by norm_num) (by decide) (by decide)⟩

/-- Counterexample to C5: on `c5Pool` the input-side reserve is non-positive
(`reserve0 = 0` with direction zeroToOne) yet V2 `swapExactInput` does not
fail — it returns a quote, because the source checks only `reserveOut`. -/
theorem c5_counterexample :
    c5Pool.reserve0 ≤ 0 ∧
    V2.swapExactInput c5Pool true (10 * 10 ^ 18) ≠
      Except.error V2.QuoteError.insufficientLiquidity := by
  refine ⟨by decide, ?_⟩
  rw [show V2.swapExactInput c5Pool true (10 * 10 ^ 18) =
    Except.ok 18140589569160997731 from rfl]
  intro h
  exact Except.noConfusion h

/-- C5 as amended: with a positive requested amount, V1 `quoteByOutput` fails
with `InsufficientLiquidity` whenever either reserve is non-positive, while
V2 `quoteByInput` and `quoteByOutput` fail with `InsufficientLiquidity`
whenever the output-side reserve is non-positive (the input-side reserve is
not checked by V2, as the counterexample shows). -/
theorem c5_insufficient_liquidity :
    (∀ (pool : V1.BrownFiPoolState) (zeroToOne : Bool) (amountOut : Int),
        0 < amountOut →
        (if zeroToOne then pool.reserve0 else pool.reserve1) ≤ 0 ∨
          (if zeroToOne then pool.reserve1 else pool.reserve0) ≤ 0 →
        V1.swapExactOutput pool zeroToOne amountOut =
          Except.error V1.QuoteError.insufficientLiquidity) ∧
    (∀ (pool : V2.BrownFiV2PoolState) (zeroToOne : Bool) (amountIn : Int),
        0 < amountIn →
        (if zeroToOne then pool.reserve1 else pool.reserve0) ≤ 0 →
        V2.swapExactInput pool zeroToOne amountIn =
          Except.error V2.QuoteError.insufficientLiquidity) ∧
    (∀ (pool : V2.BrownFiV2PoolState) (zeroToOne : Bool) (amountOut : Int),
        0 < amountOut →
        (if zeroToOne then pool.reserve1 else pool.reserve0) ≤ 0 →
        V2.swapExactOutput pool zeroToOne amountOut =
          Except.error V2.QuoteError.insufficientLiquidity) := by
  refine ⟨?_, ?_, ?_⟩
  · intro pool zeroToOne amountOut ha hr
    simp only [V1.swapExactOutput]
    rw [if_neg (by omega), if_pos hr]
  · intro pool zeroToOne amountIn ha hr
    simp only [V2.swapExactInput]
    rw [if_neg (by omega), if_pos hr]
  · intro pool zeroToOne amountOut ha hr
    simp only [V2.swapExactOutput]
    rw [if_neg (by omega), if_pos hr]

/-- Witness for the amended C5 on concrete zero-reserve pool states. -/
theorem c5_insufficient_liquidity_witness :
    ((0 : Int) < 5 ∧
      ((if true then c5PoolV1.reserve0 else c5PoolV1.reserve1) ≤ 0 ∨
        (if true then c5PoolV1.reserve1 else c5PoolV1.reserve0) ≤ 0) ∧
      V1.swapExactOutput c5PoolV1 true 5 =
        Except.error V1.QuoteError.insufficientLiquidity) ∧
    ((if true then c5PoolV2Out.reserve1 else c5PoolV2Out.reserve0) ≤ 0 ∧
      V2.swapExactInput c5PoolV2Out true 5 =
        Except.error V2.QuoteError.insufficientLiquidity ∧
      V2.swapExactOutput c5PoolV2Out true 5 =
        Except.error V2.QuoteError.insufficientLiquidity) :=
  ⟨⟨by norm_num, by left; decide,
      c5_insufficient_liquidity.1 c5PoolV1 true 5 (by norm_num) (by left; decide)⟩,
    ⟨by decide,
      c5_insufficient_liquidity.2.1 c5PoolV2Out true 5 (by norm_num) (by decide),
      c5_insufficient_liquidity.2.2 c5PoolV2Out true 5 (by norm_num) (by decide)⟩⟩

/-- C4: with positive reserves and a positive requested amount (and the V1
fee in its parts-per-10000 range, so that the claim's ceiling formula is the
code's `mulDivRoundingUp`), V1 `swapExactOutput` fails with
`InsufficientOutputAmount` exactly when
`⌈amountOut·10000/(10000−fee)⌉·10 ≥ reserveOut·9`, and V2 `swapExactOutput`
fails with `MaxReserveFractionExceeded` exactly when
`amountOut·10 ≥ reserveOut·8` on the raw native-decimals amounts; below the
thresholds neither failure occurs. -/
theorem c4_reserve_fraction_caps :
    (∀ (pool : V1.BrownFiPoolState) (zeroToOne : Bool) (amountOut : Int),
        0 < pool.reserve0 → 0 < pool.reserve1 → 0 < amountOut →
        0 ≤ pool.fee → pool.fee < 10000 →
        (V1.swapExactOutput pool zeroToOne amountOut =
            Except.error V1.QuoteError.insufficientOutputAmount ↔
          Spec.mulDivCeil amountOut 10000 (10000 - pool.fee) * 10 ≥
            (if zeroToOne then pool.reserve1 else pool.reserve0) * 9)) ∧
    (∀ (pool : V2.BrownFiV2PoolState) (zeroToOne : Bool) (amountOut : Int),
        0 < pool.reserve0 → 0 < pool.reserve1 → 0 < amountOut →
        (V2.swapExactOutput pool zeroToOne amountOut =
            Except.error V2.QuoteError.maxReserveFractionExceeded ↔
          amountOut * 10 ≥ (if zeroToOne then pool.reserve1 else pool.reserve0) * 8)) := by
  constructor
  · intro pool z amountOut hr0 hr1 ha hf0 hf1
    have hIn : 0 < (if z then pool.reserve0 else pool.reserve1) := by
      cases z <;> simpa
    have hOut : 0 < (if z then pool.reserve1 else pool.reserve0) := by
      cases z <;> simpa
    have hawf : V1.mulDivRoundingUp amountOut 10000 (10000 - pool.fee) =
        Spec.mulDivCeil amountOut 10000 (10000 - pool.fee) :=
      mulDivRoundingUp_eq_mulDivCeil _ _ _ (by omega)
    simp only [V1.swapExactOutput, V1.FEE_DENOMINATOR]
    rw [if_neg (by omega), if_neg (by omega), hawf]
    by_cases hth : Spec.mulDivCeil amountOut 10000 (10000 - pool.fee) * 10 ≥
        (if z then pool.reserve1 else pool.reserve0) * 9
    · rw [if_pos hth]
      exact iff_of_true rfl hth
    · rw [if_neg hth]
      refine iff_of_false ?_ hth
      cases z <;> exact fun h => Except.noConfusion h
  · intro pool z amountOut hr0 hr1 ha
    have hOut : 0 < (if z then pool.reserve1 else pool.reserve0) := by
      cases z <;> simpa
    simp only [V2.swapExactOutput]
    rw [if_neg (by omega), if_neg (by omega)]
    by_cases hth : amountOut * 10 ≥ (if z then pool.reserve1 else pool.reserve0) * 8
    · rw [if_pos hth]
      exact iff_of_true rfl hth
    · rw [if_neg hth]
      exact iff_of_false (fun h => Except.noConfusion h) hth

/-- Witness for C4 at the reference pools with `amountOut = 10¹⁸`. -/
theorem c4_reserve_fraction_caps_witness :
    ((0 : Int) < referencePoolV1.reserve0 ∧ 0 < referencePoolV1.reserve1 ∧
      (0 : Int) < 10 ^ 18 ∧ 0 ≤ referencePoolV1.fee ∧ referencePoolV1.fee < 10000 ∧
      (V1.swapExactOutput referencePoolV1 true (10 ^ 18) =
          Except.error V1.QuoteError.insufficientOutputAmount ↔
        Spec.mulDivCeil (10 ^ 18) 10000 (10000 - referencePoolV1.fee) * 10 ≥
          (if true then referencePoolV1.reserve1 else referencePoolV1.reserve0) * 9)) ∧
    ((0 : Int) < referencePoolV2.reserve0 ∧ 0 < referencePoolV2.reserve1 ∧
      (V2.swapExactOutput referencePoolV2 true (10 ^ 18) =
          Except.error V2.QuoteError.maxReserveFractionExceeded ↔
        (10 : Int) ^ 18 * 10 ≥
          (if true then referencePoolV2.reserve1 else referencePoolV2.reserve0) * 8)) :=
  ⟨⟨by decide, by decide, by norm_num, by decide, by decide,
      c4_reserve_fraction_caps.1 referencePoolV1 true (10 ^ 18)
        (by decide) (by decide) (by norm_num) (by decide) (by decide)⟩,
    ⟨by decide, by decide,
      c4_reserve_fraction_caps.2 referencePoolV2 true (10 ^ 18)
        (by decide) (by decide) (by norm_num)⟩⟩

/-- C3: for every V1 pool state with positive reserves, `fee < 10000`, a
positive oracle price (a zero oracle price makes the source's division throw
instead of returning), and a positive `amountOut` under the 90% cap,
`swapExactOutput` returns exactly the claim's formula, in which every
division rounds up: `amountIn = ⌈amountOutWithFee·avgPrice/Q128⌉` with
`amountOutWithFee = ⌈amountOut·10000/(10000−fee)⌉`,
`r = ⌈kappa'·amountOutWithFee/(reserveOut−amountOutWithFee)⌉`
(`kappa' = Q128` when the pool's `kappa` is `0`), and
`avgPrice = ⌈(2·Q128+r)·Q128/(oraclePrice·2)⌉` for zeroToOne or
`⌈oraclePrice·(2·Q128+r)/(2·Q128)⌉` for oneToZero. -/
theorem c3_v1_quoteByOutput_rounds_up :
    ∀ (pool : V1.BrownFiPoolState) (zeroToOne : Bool) (amountOut : Int),
      0 < pool.reserve0 → 0 < pool.reserve1 → pool.fee < 10000 →
      0 < pool.oraclePrice → 0 < amountOut →
      Spec.mulDivCeil amountOut 10000 (10000 - pool.fee) * 10 <
        (if zeroToOne then pool.reserve1 else pool.reserve0) * 9 →
      V1.swapExactOutput pool zeroToOne amountOut =
        Except.ok (Spec.quoteByOutputV1 pool zeroToOne amountOut) := by
  intro pool z amountOut hr0 hr1 hf hop ha hcap
  have hQpos : (0 : Int) < V1.Q128 := by unfold V1.Q128; positivity
  have hawfpos : 0 < Spec.mulDivCeil amountOut 10000 (10000 - pool.fee) :=
    mulDivCeil_pos _ _ _ (by positivity) (by omega)
  have hawf : V1.mulDivRoundingUp amountOut 10000 (10000 - pool.fee) =
      Spec.mulDivCeil amountOut 10000 (10000 - pool.fee) :=
    mulDivRoundingUp_eq_mulDivCeil _ _ _ (by omega)
  simp only [V1.swapExactOutput, Spec.quoteByOutputV1, V1.FEE_DENOMINATOR]
  cases z
  · simp only [Bool.false_eq_true, if_false] at hcap ⊢
    rw [if_neg (by omega), if_neg (by omega), hawf, if_neg (by omega)]
    set awf := Spec.mulDivCeil amountOut 10000 (10000 - pool.fee) with hA
    set kp := (if pool.kappa = 0 then V1.Q128 else pool.kappa) with hK
    have h1 : V1.mulDivRoundingUp kp awf (pool.reserve0 - awf) =
        Spec.mulDivCeil kp awf (pool.reserve0 - awf) :=
      mulDivRoundingUp_eq_mulDivCeil _ _ _ (by omega)
    rw [h1]
    set rc := Spec.mulDivCeil kp awf (pool.reserve0 - awf) with hR
    have h2 : V1.mulDivRoundingUp pool.oraclePrice (V1.Q128 * 2 + rc) (V1.Q128 * 2) =
        Spec.mulDivCeil pool.oraclePrice (V1.Q128 * 2 + rc) (V1.Q128 * 2) :=
      mulDivRoundingUp_eq_mulDivCeil _ _ _ (by linarith)
    rw [h2]
    have h3 : V1.mulDivRoundingUp awf
        (Spec.mulDivCeil pool.oraclePrice (V1.Q128 * 2 + rc) (V1.Q128 * 2)) V1.Q128 =
        Spec.mulDivCeil awf
          (Spec.mulDivCeil pool.oraclePrice (V1.Q128 * 2 + rc) (V1.Q128 * 2)) V1.Q128 :=
      mulDivRoundingUp_eq_mulDivCeil _ _ _ hQpos
    rw [h3, mul_comm V1.Q128 2]
  · simp only [if_true] at hcap ⊢
    rw [if_neg (by omega), if_neg (by omega), hawf, if_neg (by omega)]
    set awf := Spec.mulDivCeil amountOut 10000 (10000 - pool.fee) with hA
    set kp := (if pool.kappa = 0 then V1.Q128 else pool.kappa) with hK
    have h1 : V1.mulDivRoundingUp kp awf (pool.reserve1 - awf) =
        Spec.mulDivCeil kp awf (pool.reserve1 - awf) :=
      mulDivRoundingUp_eq_mulDivCeil _ _ _ (by omega)
    rw [h1]
    set rc := Spec.mulDivCeil kp awf (pool.reserve1 - awf) with hR
    have h2 : V1.mulDivRoundingUp (V1.Q128 * 2 + rc) V1.Q128 (pool.oraclePrice * 2) =
        Spec.mulDivCeil (V1.Q128 * 2 + rc) V1.Q128 (pool.oraclePrice * 2) :=
      mulDivRoundingUp_eq_mulDivCeil _ _ _ (by linarith)
    rw [h2]
    have h3 : V1.mulDivRoundingUp awf
        (Spec.mulDivCeil (V1.Q128 * 2 + rc) V1.Q128 (pool.oraclePrice * 2)) V1.Q128 =
        Spec.mulDivCeil awf
          (Spec.mulDivCeil (V1.Q128 * 2 + rc) V1.Q128 (pool.oraclePrice * 2)) V1.Q128 :=
      mulDivRoundingUp_eq_mulDivCeil _ _ _ hQpos
    rw [h3, mul_comm V1.Q128 2]

set_option maxRecDepth 100000 in
/-- Witness for C3 at the V1 reference pool with `amountOut = 10¹⁸`. -/
theorem c3_v1_quoteByOutput_rounds_up_witness :
    ((0 : Int) < referencePoolV1.reserve0 ∧ 0 < referencePoolV1.reserve1 ∧
      referencePoolV1.fee < 10000 ∧ 0 < referencePoolV1.oraclePrice ∧
      (0 : Int) < 10 ^ 18 ∧
      Spec.mulDivCeil (10 ^ 18) 10000 (10000 - referencePoolV1.fee) * 10 <
        (if true then referencePoolV1.reserve1 else referencePoolV1.reserve0) * 9) ∧
    V1.swapExactOutput referencePoolV1 true (10 ^ 18) =
      Except.ok (Spec.quoteByOutputV1 referencePoolV1 true (10 ^ 18)) :=
  ⟨⟨by decide, by decide, by decide, by decide, by norm_num, by decide⟩,
    c3_v1_quoteByOutput_rounds_up referencePoolV1 true (10 ^ 18)
      (by decide) (by decide) (by decide) (by decide) (by norm_num) (by decide)⟩

set_option maxRecDepth 100000 in
/-- Counterexample to C2: on `c2Pool` with direction zeroToOne and
`amountIn = 1`, the general-case numerator `leftNumerator − Q64·isqrtFloor(…)`
is `−1` with a positive denominator, so the claim's floor division yields
`−1` while the code's truncating `bigint` division yields `0`; the code does
not return the claim's formula. -/
theorem c2_counterexample :
    V2.swapExactInput c2Pool true 1 ≠
      Except.ok (Spec.quoteByInputV2 c2Pool true 1) := by
  have hk : c2Pool.kappa ≠ 2 * V2.Q64 := by decide
  have e1 : (V2.skewPrices c2Pool true).1 = 18446744073709551615 := by decide
  have e2 : (V2.skewPrices c2Pool true).2 = 18446744073709551615 := by decide
  have e3 : Spec.toCanonicalScale 18 1 = 1 := by decide
  have e4 : Spec.toCanonicalScale 18 (18446744073709551616 : Int) =
      18446744073709551616 := by decide
  have e5 : Spec.mulDivFloor 1 100000000 100000000 = 1 := by decide
  have h1 : Spec.quoteByInputV2 c2Pool true 1 =
      Spec.fromCanonicalScale 18
        (Spec.generalOutFloor 18446744073709551615 18446744073709551615
          18446744073709551616 1 33090758686999542736) := by
    simp only [Spec.quoteByInputV2]
    rw [if_neg hk]
    norm_num [e1, e2, e3, e4, e5,
      show c2Pool.token0Decimals = 18 from rfl, show c2Pool.token1Decimals = 18 from rfl,
      show c2Pool.reserve1 = 18446744073709551616 from rfl,
      show c2Pool.fee = 0 from rfl,
      show c2Pool.kappa = 33090758686999542736 from rfl]
  have h2 : Spec.generalOutFloor 18446744073709551615 18446744073709551615
      18446744073709551616 1 33090758686999542736 =
      (340282366920938463463374607431768211455 -
        V2.Q64 * Spec.isqrtFloor 340282366920938463492662636658348193689).fdiv
        3802729460419560495 := rfl
  have h3 : Spec.isqrtFloor (340282366920938463492662636658348193689 : Int) =
      ((18446744073709551616 : Nat) : Int) :=
    isqrtFloor_eq_of_bounds _ 18446744073709551616 (by decide) (by decide)
  have h4 : Spec.quoteByInputV2 c2Pool true 1 = -1 := by
    rw [h1, h2, h3]
    decide
  rw [h4, show V2.swapExactInput c2Pool true 1 = Except.ok 0 from rfl]
  intro h
  exact absurd (Except.ok.inj h) (by decide)

/-- C2 as amended by the counterexample: for every V2 pool state with
nonnegative fee and curvature, nonnegative skew-adjusted prices, a positive
`amountIn` and a positive output-side reserve, and on which none of the
source's bigint divisions has a zero denominator (the skewness notional sum
when `lambda ≠ 0`, the constant-product denominator when `kappa = 2·Q64`,
and the general-case `denominator` otherwise — at a zero denominator the
source throws a `RangeError` instead of returning), `swapExactInput`
returns the claim's formula with the general-case final division, the
general-case `denominator`, and the final rescale performed as truncation
toward zero (which agrees with the claimed floor division whenever those
operands are nonnegative, but not on the counterexample's negative
numerator); all other divisions are floor divisions exactly as claimed. -/
theorem c2_v2_quoteByInput_formula :
    ∀ (pool : V2.BrownFiV2PoolState) (zeroToOne : Bool) (amountIn : Int),
      0 < amountIn →
      0 < (if zeroToOne then pool.reserve1 else pool.reserve0) →
      0 ≤ pool.fee → 0 ≤ pool.kappa →
      0 ≤ (V2.skewPrices pool zeroToOne).1 →
      0 ≤ (V2.skewPrices pool zeroToOne).2 →
      (pool.lambda = 0 ∨
        V2.parseRawToDefaultDecimals pool.token0Decimals pool.reserve0 *
            (if zeroToOne then pool.price0 else pool.price1) +
          V2.parseRawToDefaultDecimals pool.token1Decimals pool.reserve1 *
            (if zeroToOne then pool.price1 else pool.price0) ≠ 0) →
      (pool.kappa = 2 * V2.Q64 →
        (V2.skewPrices pool zeroToOne).2 * Deriv.v2ParsedReserveOut pool zeroToOne +
          Deriv.v2EffIn pool zeroToOne amountIn * (V2.skewPrices pool zeroToOne).1 ≠ 0) →
      (pool.kappa ≠ 2 * V2.Q64 →
        V2.mulDiv (V2.skewPrices pool zeroToOne).2 (2 * V2.Q64 - pool.kappa) V2.Q64 ≠ 0) →
      V2.swapExactInput pool zeroToOne amountIn =
        Except.ok (Spec.quoteByInputV2Amended pool zeroToOne amountIn) := by
  intro pool z amountIn ha hr hfee hkap hpIn hpOut hskew hdenCP hdenG
  have hQ : (0 : Int) < V2.Q64 := by unfold V2.Q64; positivity
  simp only [V2.swapExactInput, Spec.quoteByInputV2Amended]
  rw [if_neg (by omega), if_neg (by omega)]
  set dIn := (if z then pool.token0Decimals else pool.token1Decimals) with hdIn
  set dOut := (if z then pool.token1Decimals else pool.token0Decimals) with hdOut
  set rOut := (if z then pool.reserve1 else pool.reserve0) with hrOut
  set pI := (V2.skewPrices pool z).1 with hpI
  set pO := (V2.skewPrices pool z).2 with hpO
  have hAin : Spec.toCanonicalScale dIn amountIn = V2.parseRawToDefaultDecimals dIn amountIn :=
    (parseRaw_eq_toCanonical _ _ (by omega)).symm
  have hROut : Spec.toCanonicalScale dOut rOut = V2.parseRawToDefaultDecimals dOut rOut :=
    (parseRaw_eq_toCanonical _ _ (by omega)).symm
  rw [hAin, hROut]
  set A := V2.parseRawToDefaultDecimals dIn amountIn with hA
  set R := V2.parseRawToDefaultDecimals dOut rOut with hR
  have hA0 : 0 ≤ A := parseRaw_nonneg _ _ (by omega)
  have hR0 : 0 ≤ R := parseRaw_nonneg _ _ (by omega)
  have heff : V2.mulDiv A V2.PRECISION (V2.PRECISION + pool.fee) =
      Spec.mulDivFloor A 100000000 (100000000 + pool.fee) := by
    unfold V2.mulDiv Spec.mulDivFloor V2.PRECISION
    exact tdiv_eq_fdiv _ _ (by positivity) (by omega)
  rw [show (100000000 : Int) = V2.PRECISION from rfl] at heff ⊢
  rw [← heff]
  set E := V2.mulDiv A V2.PRECISION (V2.PRECISION + pool.fee) with hE
  have hE0 : 0 ≤ E := by
    rw [hE]
    unfold V2.mulDiv V2.PRECISION
    exact Int.tdiv_nonneg (by positivity) (by omega)
  by_cases hk : pool.kappa = 2 * V2.Q64
  · rw [if_pos hk, if_pos hk]
    unfold Spec.constantProductOut V2.mulDiv Spec.mulDivFloor
    rw [tdiv_eq_fdiv _ _ (by positivity) (by positivity)]
  · rw [if_neg hk, if_neg hk]
    simp only [Spec.generalOutTrunc]
    have ht1 : Spec.mulDivFloor E pI V2.Q64 = V2.mulDiv E pI V2.Q64 := by
      unfold V2.mulDiv Spec.mulDivFloor
      rw [tdiv_eq_fdiv _ _ (by positivity) hQ.le]
    have ht2 : Spec.mulDivFloor R pO V2.Q64 = V2.mulDiv R pO V2.Q64 := by
      unfold V2.mulDiv Spec.mulDivFloor
      rw [tdiv_eq_fdiv _ _ (by positivity) hQ.le]
    have hlsq : |Spec.mulDivFloor E pI V2.Q64 - Spec.mulDivFloor R pO V2.Q64| ^ 2 =
        V2.computeLeftSqrt E pI pO R := by
      unfold V2.computeLeftSqrt
      rw [ht1, ht2, if_sub_mul_self_eq_abs_sq]
    have hrs1 : Spec.mulDivFloor (pI * pO) pool.kappa (V2.Q64 * V2.Q64) =
        V2.mulDiv (pI * pO) pool.kappa (V2.Q64 * V2.Q64) := by
      unfold V2.mulDiv Spec.mulDivFloor
      rw [tdiv_eq_fdiv _ _ (by positivity) (by positivity)]
    have hrs2 : Spec.mulDivFloor (R * E) 2 V2.Q64 = V2.mulDiv (R * E) 2 V2.Q64 := by
      unfold V2.mulDiv Spec.mulDivFloor
      rw [tdiv_eq_fdiv _ _ (by positivity) hQ.le]
    have hrsq : Spec.mulDivFloor (pI * pO) pool.kappa (V2.Q64 * V2.Q64) *
          Spec.mulDivFloor (R * E) 2 V2.Q64 = V2.computeRightSqrt E pI pO R pool.kappa := by
      unfold V2.computeRightSqrt
      rw [hrs1, hrs2]
    have hlsq0 : 0 ≤ V2.computeLeftSqrt E pI pO R := by
      rw [← hlsq]
      positivity
    have hrsq0 : 0 ≤ V2.computeRightSqrt E pI pO R pool.kappa := by
      rw [← hrsq]
      refine mul_nonneg (mulDivFloor_nonneg _ _ _ (by positivity) (by positivity))
        (mulDivFloor_nonneg _ _ _ (by positivity) hQ.le)
    have hsq : Spec.isqrtFloor
          (V2.computeLeftSqrt E pI pO R + V2.computeRightSqrt E pI pO R pool.kappa) =
        V2.sqrt (V2.computeLeftSqrt E pI pO R + V2.computeRightSqrt E pI pO R pool.kappa) :=
      (sqrt_eq_isqrtFloor _ (by omega)).symm
    rw [hlsq, hrsq, hsq]
    rfl

set_option maxRecDepth 100000 in
/-- Witness for the amended C2 at the V2 reference pool with
`amountIn = 10¹⁸`. -/
theorem c2_v2_quoteByInput_formula_witness :
    ((0 : Int) < 10 ^ 18 ∧
      0 < (if true then referencePoolV2.reserve1 else referencePoolV2.reserve0) ∧
      0 ≤ referencePoolV2.fee ∧ 0 ≤ referencePoolV2.kappa ∧
      0 ≤ (V2.skewPrices referencePoolV2 true).1 ∧
      0 ≤ (V2.skewPrices referencePoolV2 true).2 ∧
      referencePoolV2.lambda = 0 ∧
      (V2.skewPrices referencePoolV2 true).2 * Deriv.v2ParsedReserveOut referencePoolV2 true +
        Deriv.v2EffIn referencePoolV2 true (10 ^ 18) *
          (V2.skewPrices referencePoolV2 true).1 ≠ 0 ∧
      referencePoolV2.kappa = 2 * V2.Q64) ∧
    V2.swapExactInput referencePoolV2 true (10 ^ 18) =
      Except.ok (Spec.quoteByInputV2Amended referencePoolV2 true (10 ^ 18)) :=
  ⟨⟨by norm_num, by decide, by decide, by decide, by decide, by decide, rfl, by decide, rfl⟩,
    c2_v2_quoteByInput_formula referencePoolV2 true (10 ^ 18)
      (by norm_num) (by decide) (by decide) (by decide) (by decide) (by decide)
      (Or.inl rfl) (fun _ => by decide) (fun h => absurd rfl h)⟩

theorem mulDiv_nonneg (a b d : Int) (hab : 0 ≤ a * b) (hd : 0 ≤ d) :
    0 ≤ V2.mulDiv a b d :=
  Int.tdiv_nonneg hab hd

theorem mulDiv_mono_cross (a1 b1 d1 a2 b2 d2 : Int) (h1 : 0 ≤ a1 * b1) (hd1 : 0 < d1)
    (hd2 : 0 < d2) (h : a1 * b1 * d2 ≤ a2 * b2 * d1) :
    V2.mulDiv a1 b1 d1 ≤ V2.mulDiv a2 b2 d2 :=
  tdiv_mono_cross _ _ _ _ h1 hd1 hd2 h

theorem v1_swapExactOutput_ok_inv (pool : V1.BrownFiPoolState) (z : Bool) (a r : Int)
    (h : V1.swapExactOutput pool z a = Except.ok r) :
    0 < a ∧ 0 < (if z then pool.reserve0 else pool.reserve1) ∧
    0 < Deriv.v1ReserveOut pool z ∧
    Deriv.v1AmountOutWithFee pool a * 10 < Deriv.v1ReserveOut pool z * 9 ∧
    r = Deriv.v1AmountIn pool z a := by
  simp only [V1.swapExactOutput] at h
  by_cases h1 : a ≤ 0
  · rw [if_pos h1] at h
    exact Except.noConfusion h
  rw [if_neg h1] at h
  by_cases h2 : (if z = true then pool.reserve0 else pool.reserve1) ≤ 0 ∨
      (if z = true then pool.reserve1 else pool.reserve0) ≤ 0
  · rw [if_pos h2] at h
    exact Except.noConfusion h
  rw [if_neg h2] at h
  by_cases h3 : V1.mulDivRoundingUp a V1.FEE_DENOMINATOR (V1.FEE_DENOMINATOR - pool.fee) * 10 ≥
      (if z = true then pool.reserve1 else pool.reserve0) * 9
  · rw [if_pos h3] at h
    exact Except.noConfusion h
  rw [if_neg h3] at h
  push_neg at h2
  unfold Deriv.v1AmountIn Deriv.v1AvgPrice Deriv.v1PriceImpact Deriv.v1AmountOutWithFee
    Deriv.v1ReserveOut
  refine ⟨by omega, by omega, by omega, by omega, ?_⟩
  cases z
  · rw [if_neg (by simp)] at h
    rw [if_neg (by simp)]
    exact (Except.ok.inj h).symm
  · rw [if_pos rfl] at h
    rw [if_pos rfl]
    exact (Except.ok.inj h).symm

theorem v2_swapExactOutput_ok_inv (pool : V2.BrownFiV2PoolState) (z : Bool) (a r : Int)
    (h : V2.swapExactOutput pool z a = Except.ok r) :
    0 < a ∧ 0 < Deriv.v2ReserveOut pool z ∧
    a * 10 < Deriv.v2ReserveOut pool z * 8 ∧
    r = Deriv.v2QuoteOut pool z a := by
  simp only [V2.swapExactOutput] at h
  by_cases h1 : a ≤ 0
  · rw [if_pos h1] at h
    exact Except.noConfusion h
  rw [if_neg h1] at h
  by_cases h2 : (if z = true then pool.reserve1 else pool.reserve0) ≤ 0
  · rw [if_pos h2] at h
    exact Except.noConfusion h
  rw [if_neg h2] at h
  by_cases h3 : a * 10 ≥ (if z = true then pool.reserve1 else pool.reserve0) * 8
  · rw [if_pos h3] at h
    exact Except.noConfusion h
  rw [if_neg h3] at h
  unfold Deriv.v2QuoteOut Deriv.v2AmountIn Deriv.v2AmountInNoFee Deriv.v2PriceImpact
    Deriv.v2ParsedAmountOut Deriv.v2ParsedReserveOut Deriv.v2TokenInDecimals
    Deriv.v2TokenOutDecimals Deriv.v2ReserveOut
  refine ⟨by omega, by omega, by omega, ?_⟩
  exact (Except.ok.inj h).symm

theorem v2_swapExactInput_ok_inv (pool : V2.BrownFiV2PoolState) (z : Bool) (a r : Int)
    (h : V2.swapExactInput pool z a = Except.ok r) :
    0 < a ∧ 0 < Deriv.v2ReserveOut pool z ∧ r = Deriv.v2QuoteIn pool z a := by
  simp only [V2.swapExactInput] at h
  by_cases h1 : a ≤ 0
  · rw [if_pos h1] at h
    exact Except.noConfusion h
  rw [if_neg h1] at h
  by_cases h2 : (if z = true then pool.reserve1 else pool.reserve0) ≤ 0
  · rw [if_pos h2] at h
    exact Except.noConfusion h
  rw [if_neg h2] at h
  unfold Deriv.v2QuoteIn Deriv.v2OutSpecial Deriv.v2OutGeneral Deriv.v2EffIn
    Deriv.v2ParsedAmountIn Deriv.v2ParsedReserveOut Deriv.v2TokenInDecimals
    Deriv.v2TokenOutDecimals Deriv.v2ReserveOut
  refine ⟨by omega, by omega, ?_⟩
  exact (Except.ok.inj h).symm

set_option maxRecDepth 1000000 in
/-- Counterexample to C9: strict monotonicity of `quoteByOutput` fails on
both variants — on `c9PoolV1` the in-domain amounts `1 < 2` produce the same
required input `1`, and on `c9PoolV2Out` the in-domain amounts `1 < 2` both
produce `0`; moreover V2 `quoteByInput` is not even weakly increasing in the
general case — on `c9PoolV2In` (`kappa = Q64 ≠ 2·Q64`) increasing the input
amount by one decreases the output. -/
theorem c9_counterexample :
    (V1.swapExactOutput c9PoolV1 true 1 = Except.ok 1 ∧
      V1.swapExactOutput c9PoolV1 true 2 = Except.ok 1) ∧
    (V2.swapExactOutput c9PoolV2Out true 1 = Except.ok 0 ∧
      V2.swapExactOutput c9PoolV2Out true 2 = Except.ok 0) ∧
    (V2.swapExactInput c9PoolV2In true 32095896818544992446 =
        Except.ok 30068911775001382818 ∧
      V2.swapExactInput c9PoolV2In true 32095896818544992447 =
        Except.ok 30068911775001382817) :=
  ⟨⟨rfl, rfl⟩, ⟨rfl, rfl⟩, ⟨rfl, rfl⟩⟩

set_option maxHeartbeats 2000000 in
/-- C9 as amended by the counterexample: over the valid domain (calls that
return a value), with well-formed nonnegative parameters and positive
prices where the formulas divide by them, V1 and V2 `quoteByOutput` and V1
`quoteByInput` are weakly (not strictly) increasing in the amount, and V2
`quoteByInput` is weakly increasing in the constant-product case
`kappa = 2·Q64` (in the general case it is not even weakly monotone, as the
counterexample shows); the V2 parts assume an output token with at most 18
decimals, which keeps the price-impact and constant-product denominators
positive. -/
theorem c9_monotonicity :
    (∀ (pool : V1.BrownFiPoolState) (z : Bool) (a1 a2 r1 r2 : Int),
        0 ≤ pool.kappa → 0 < pool.oraclePrice → 0 ≤ pool.fee → pool.fee < 10000 →
        0 < a1 → a1 ≤ a2 →
        V1.swapExactOutput pool z a1 = Except.ok r1 →
        V1.swapExactOutput pool z a2 = Except.ok r2 → r1 ≤ r2) ∧
    (∀ (pool : V1.BrownFiPoolState) (z : Bool) (a1 a2 : Int), a1 ≤ a2 →
        V1.swapExactInput pool z a1 ≤ V1.swapExactInput pool z a2) ∧
    (∀ (pool : V2.BrownFiV2PoolState) (z : Bool) (a1 a2 r1 r2 : Int),
        Deriv.v2TokenOutDecimals pool z ≤ 18 → 0 ≤ pool.kappa → 0 ≤ pool.fee →
        0 < (V2.skewPrices pool z).1 → 0 ≤ (V2.skewPrices pool z).2 →
        0 < a1 → a1 ≤ a2 →
        V2.swapExactOutput pool z a1 = Except.ok r1 →
        V2.swapExactOutput pool z a2 = Except.ok r2 → r1 ≤ r2) ∧
    (∀ (pool : V2.BrownFiV2PoolState) (z : Bool) (a1 a2 r1 r2 : Int),
        pool.kappa = 2 * V2.Q64 → Deriv.v2TokenOutDecimals pool z ≤ 18 → 0 ≤ pool.fee →
        0 < (V2.skewPrices pool z).1 → 0 < (V2.skewPrices pool z).2 →
        0 < a1 → a1 ≤ a2 →
        V2.swapExactInput pool z a1 = Except.ok r1 →
        V2.swapExactInput pool z a2 = Except.ok r2 → r1 ≤ r2) := by
  have hQ128 : (0 : Int) < V1.Q128 := by unfold V1.Q128; positivity
  have hQ64 : (0 : Int) < V2.Q64 := by unfold V2.Q64; positivity
  have hFD : V1.FEE_DENOMINATOR = 10000 := rfl
  have hPR : V2.PRECISION = 100000000 := rfl
  refine ⟨?_, ?_, ?_, ?_⟩
  · -- V1 quoteByOutput is weakly increasing
    intro pool z a1 a2 r1 r2 hkap hop hf0 hf1 ha1 h12 hok1 hok2
    obtain ⟨-, -, hOut, hcap1, hr1⟩ := v1_swapExactOutput_ok_inv pool z a1 r1 hok1
    obtain ⟨-, -, -, hcap2, hr2⟩ := v1_swapExactOutput_ok_inv pool z a2 r2 hok2
    subst hr1 hr2
    have hdfee : (0 : Int) < V1.FEE_DENOMINATOR - pool.fee := by omega
    have hFDpos : (0 : Int) < V1.FEE_DENOMINATOR := by rw [hFD]; norm_num
    have hawf1_pos : 0 < Deriv.v1AmountOutWithFee pool a1 := by
      unfold Deriv.v1AmountOutWithFee
      rw [mulDivRoundingUp_eq_mulDivCeil _ _ _ hdfee]
      exact mulDivCeil_pos _ _ _ (mul_pos ha1 hFDpos) hdfee
    have hawf_mono : Deriv.v1AmountOutWithFee pool a1 ≤ Deriv.v1AmountOutWithFee pool a2 := by
      unfold Deriv.v1AmountOutWithFee
      rw [mulDivRoundingUp_eq_mulDivCeil _ _ _ hdfee, mulDivRoundingUp_eq_mulDivCeil _ _ _ hdfee]
      refine mulDivCeil_mono _ _ _ _ _ _ hdfee hdfee ?_
      nlinarith [mul_nonneg (mul_nonneg (sub_nonneg.2 h12) hFDpos.le) hdfee.le]
    have hawf2_pos : 0 < Deriv.v1AmountOutWithFee pool a2 := lt_of_lt_of_le hawf1_pos hawf_mono
    have h1lt : Deriv.v1AmountOutWithFee pool a1 < Deriv.v1ReserveOut pool z := by omega
    have h2lt : Deriv.v1AmountOutWithFee pool a2 < Deriv.v1ReserveOut pool z := by omega
    have hkapEff : 0 ≤ (if pool.kappa = 0 then V1.Q128 else pool.kappa) := by
      by_cases hk0 : pool.kappa = 0
      · rw [if_pos hk0]
        exact hQ128.le
      · rw [if_neg hk0]
        exact hkap
    have hOut0 : (0 : Int) ≤ Deriv.v1ReserveOut pool z := hOut.le
    have hr_mono : Deriv.v1PriceImpact pool z a1 ≤ Deriv.v1PriceImpact pool z a2 := by
      unfold Deriv.v1PriceImpact
      rw [mulDivRoundingUp_eq_mulDivCeil _ _ _ (by omega),
        mulDivRoundingUp_eq_mulDivCeil _ _ _ (by omega)]
      refine mulDivCeil_mono _ _ _ _ _ _ (by omega) (by omega) ?_
      nlinarith [mul_le_mul_of_nonneg_right
          (mul_le_mul_of_nonneg_left hawf_mono hkapEff) hOut0]
    have hr1_0 : 0 ≤ Deriv.v1PriceImpact pool z a1 := by
      unfold Deriv.v1PriceImpact
      rw [mulDivRoundingUp_eq_mulDivCeil _ _ _ (by omega)]
      exact mulDivCeil_nonneg _ _ _ (mul_nonneg hkapEff hawf1_pos.le) (by omega)
    have hr2_0 : 0 ≤ Deriv.v1PriceImpact pool z a2 := le_trans hr1_0 hr_mono
    have havg1_0 : 0 ≤ Deriv.v1AvgPrice pool z a1 := by
      unfold Deriv.v1AvgPrice
      cases z
      · rw [if_neg (by simp)]
        rw [mulDivRoundingUp_eq_mulDivCeil _ _ _ (by linarith)]
        exact mulDivCeil_nonneg _ _ _ (mul_nonneg hop.le (by linarith)) (by linarith)
      · rw [if_pos rfl]
        rw [mulDivRoundingUp_eq_mulDivCeil _ _ _ (by linarith)]
        exact mulDivCeil_nonneg _ _ _ (mul_nonneg (by linarith) hQ128.le) (by linarith)
    have havg_mono : Deriv.v1AvgPrice pool z a1 ≤ Deriv.v1AvgPrice pool z a2 := by
      unfold Deriv.v1AvgPrice
      cases z
      · rw [if_neg (by simp), if_neg (by simp)]
        rw [mulDivRoundingUp_eq_mulDivCeil _ _ _ (by linarith),
          mulDivRoundingUp_eq_mulDivCeil _ _ _ (by linarith)]
        refine mulDivCeil_mono _ _ _ _ _ _ ?_ ?_ ?_
        · linarith
        · linarith
        · nlinarith [mul_le_mul_of_nonneg_right
            (mul_le_mul_of_nonneg_left hr_mono hop.le) (by linarith : (0 : Int) ≤ V1.Q128 * 2)]
      · rw [if_pos rfl, if_pos rfl]
        rw [mulDivRoundingUp_eq_mulDivCeil _ _ _ (by linarith),
          mulDivRoundingUp_eq_mulDivCeil _ _ _ (by linarith)]
        refine mulDivCeil_mono _ _ _ _ _ _ ?_ ?_ ?_
        · linarith
        · linarith
        · nlinarith [mul_le_mul_of_nonneg_right
            (mul_le_mul_of_nonneg_right hr_mono hQ128.le)
            (by linarith : (0 : Int) ≤ pool.oraclePrice * 2)]
    unfold Deriv.v1AmountIn
    rw [mulDivRoundingUp_eq_mulDivCeil _ _ _ hQ128, mulDivRoundingUp_eq_mulDivCeil _ _ _ hQ128]
    refine mulDivCeil_mono _ _ _ _ _ _ hQ128 hQ128 ?_
    nlinarith [mul_le_mul_of_nonneg_right
      (mul_le_mul hawf_mono havg_mono havg1_0 hawf2_pos.le) hQ128.le]
  · -- V1 quoteByInput (the identity) is weakly increasing
    intro pool z a1 a2 h
    exact h
  · -- V2 quoteByOutput is weakly increasing
    intro pool z a1 a2 r1 r2 hd hkap hfee hpI hpO ha1 h12 hok1 hok2
    obtain ⟨-, hOut, hcap1, hr1⟩ := v2_swapExactOutput_ok_inv pool z a1 r1 hok1
    obtain ⟨-, -, hcap2, hr2⟩ := v2_swapExactOutput_ok_inv pool z a2 r2 hok2
    subst hr1 hr2
    have hpA1_pos : 0 < Deriv.v2ParsedAmountOut pool z a1 :=
      parseRaw_pos _ _ hd ha1
    have hpA_mono : Deriv.v2ParsedAmountOut pool z a1 ≤ Deriv.v2ParsedAmountOut pool z a2 :=
      parseRaw_mono _ _ _ ha1.le h12
    have hpR_pos : 0 < Deriv.v2ParsedReserveOut pool z :=
      parseRaw_pos _ _ hd hOut
    have h1lt : Deriv.v2ParsedAmountOut pool z a1 < Deriv.v2ParsedReserveOut pool z :=
      parseRaw_lt _ _ _ hd (by omega)
    have h2lt : Deriv.v2ParsedAmountOut pool z a2 < Deriv.v2ParsedReserveOut pool z :=
      parseRaw_lt _ _ _ hd (by omega)
    have hK0 : (0 : Int) ≤ pool.kappa * V2.Q64 := mul_nonneg hkap hQ64.le
    have hPRpos : (0 : Int) < V2.PRECISION := by rw [hPR]; norm_num
    have hpi_mono : Deriv.v2PriceImpact pool z a1 ≤ Deriv.v2PriceImpact pool z a2 := by
      unfold Deriv.v2PriceImpact
      refine mulDiv_mono_cross _ _ _ _ _ _ (mul_nonneg hK0 hpA1_pos.le)
        (mul_pos hQ64 (by omega)) (mul_pos hQ64 (by omega)) ?_
      nlinarith [mul_le_mul_of_nonneg_right (mul_le_mul_of_nonneg_left hpA_mono hK0)
          (mul_nonneg hQ64.le hpR_pos.le),
        mul_nonneg (mul_nonneg hK0 hpA1_pos.le) (mul_nonneg hQ64.le (sub_nonneg.2 hpA_mono))]
    have hpi1_0 : 0 ≤ Deriv.v2PriceImpact pool z a1 := by
      unfold Deriv.v2PriceImpact
      exact mulDiv_nonneg _ _ _ (mul_nonneg hK0 hpA1_pos.le) (mul_nonneg hQ64.le (by omega))
    have hpi2_0 : 0 ≤ Deriv.v2PriceImpact pool z a2 := le_trans hpi1_0 hpi_mono
    have hinner1_0 : 0 ≤ V2.mulDiv (V2.skewPrices pool z).2
        (Deriv.v2PriceImpact pool z a1 + V2.Q64 * 2) (V2.skewPrices pool z).1 :=
      mulDiv_nonneg _ _ _ (mul_nonneg hpO (by linarith)) hpI.le
    have hinner_mono :
        V2.mulDiv (V2.skewPrices pool z).2 (Deriv.v2PriceImpact pool z a1 + V2.Q64 * 2)
            (V2.skewPrices pool z).1 ≤
          V2.mulDiv (V2.skewPrices pool z).2 (Deriv.v2PriceImpact pool z a2 + V2.Q64 * 2)
            (V2.skewPrices pool z).1 := by
      refine mulDiv_mono_cross _ _ _ _ _ _ (mul_nonneg hpO (by linarith)) hpI hpI ?_
      nlinarith [mul_le_mul_of_nonneg_right (mul_le_mul_of_nonneg_left hpi_mono hpO) hpI.le]
    have hnofee_mono : Deriv.v2AmountInNoFee pool z a1 ≤ Deriv.v2AmountInNoFee pool z a2 := by
      unfold Deriv.v2AmountInNoFee
      refine mulDiv_mono_cross _ _ _ _ _ _ (mul_nonneg hpA1_pos.le hinner1_0)
        (by linarith) (by linarith) ?_
      nlinarith [mul_le_mul_of_nonneg_right
        (mul_le_mul hpA_mono hinner_mono hinner1_0 (hpA1_pos.le.trans hpA_mono))
        (show (0 : Int) ≤ V2.Q64 * 2 by linarith)]
    have hnofee1_0 : 0 ≤ Deriv.v2AmountInNoFee pool z a1 := by
      unfold Deriv.v2AmountInNoFee
      exact mulDiv_nonneg _ _ _ (mul_nonneg hpA1_pos.le hinner1_0) (by linarith)
    have hfee_mono : Deriv.v2AmountIn pool z a1 ≤ Deriv.v2AmountIn pool z a2 := by
      unfold Deriv.v2AmountIn
      refine mulDiv_mono_cross _ _ _ _ _ _
        (mul_nonneg hnofee1_0 (by linarith)) hPRpos hPRpos ?_
      nlinarith [mul_le_mul_of_nonneg_right
        (mul_le_mul_of_nonneg_right hnofee_mono (show (0 : Int) ≤ V2.PRECISION + pool.fee
          by linarith)) hPRpos.le]
    have hfee1_0 : 0 ≤ Deriv.v2AmountIn pool z a1 := by
      unfold Deriv.v2AmountIn
      exact mulDiv_nonneg _ _ _ (mul_nonneg hnofee1_0 (by linarith)) hPRpos.le
    unfold Deriv.v2QuoteOut
    exact parseBack_mono _ _ _ hfee1_0 hfee_mono
  · -- V2 quoteByInput is weakly increasing in the constant-product case
    intro pool z a1 a2 r1 r2 hk hd hfee hpI hpO ha1 h12 hok1 hok2
    obtain ⟨-, hOut, hr1⟩ := v2_swapExactInput_ok_inv pool z a1 r1 hok1
    obtain ⟨-, -, hr2⟩ := v2_swapExactInput_ok_inv pool z a2 r2 hok2
    subst hr1 hr2
    unfold Deriv.v2QuoteIn
    rw [if_pos hk, if_pos hk]
    have hPRpos : (0 : Int) < V2.PRECISION := by rw [hPR]; norm_num
    have hpAin1 : 0 ≤ Deriv.v2ParsedAmountIn pool z a1 := parseRaw_nonneg _ _ ha1.le
    have hpAin_mono : Deriv.v2ParsedAmountIn pool z a1 ≤ Deriv.v2ParsedAmountIn pool z a2 :=
      parseRaw_mono _ _ _ ha1.le h12
    have hE1_0 : 0 ≤ Deriv.v2EffIn pool z a1 := by
      unfold Deriv.v2EffIn
      exact mulDiv_nonneg _ _ _ (mul_nonneg hpAin1 hPRpos.le) (by linarith)
    have hE_mono : Deriv.v2EffIn pool z a1 ≤ Deriv.v2EffIn pool z a2 := by
      unfold Deriv.v2EffIn
      refine mulDiv_mono_cross _ _ _ _ _ _ (mul_nonneg hpAin1 hPRpos.le)
        (by linarith) (by linarith) ?_
      nlinarith [mul_le_mul_of_nonneg_right
        (mul_le_mul_of_nonneg_right hpAin_mono hPRpos.le)
        (show (0 : Int) ≤ V2.PRECISION + pool.fee by linarith)]
    have hR_pos : 0 < Deriv.v2ParsedReserveOut pool z := parseRaw_pos _ _ hd hOut
    have hden1 : 0 < (V2.skewPrices pool z).2 * Deriv.v2ParsedReserveOut pool z +
        Deriv.v2EffIn pool z a1 * (V2.skewPrices pool z).1 := by
      nlinarith [mul_pos hpO hR_pos, mul_nonneg hE1_0 hpI.le]
    have hden2 : 0 < (V2.skewPrices pool z).2 * Deriv.v2ParsedReserveOut pool z +
        Deriv.v2EffIn pool z a2 * (V2.skewPrices pool z).1 := by
      nlinarith [mul_pos hpO hR_pos, mul_nonneg (hE1_0.trans hE_mono) hpI.le]
    have hout_mono : Deriv.v2OutSpecial pool z a1 ≤ Deriv.v2OutSpecial pool z a2 := by
      unfold Deriv.v2OutSpecial
      refine mulDiv_mono_cross _ _ _ _ _ _
        (mul_nonneg (mul_nonneg hR_pos.le hE1_0) hpI.le) hden1 hden2 ?_
      nlinarith [mul_le_mul_of_nonneg_left hE_mono
        (mul_nonneg (mul_nonneg (mul_nonneg hR_pos.le hpI.le) hpO.le) hR_pos.le)]
    have hout1_0 : 0 ≤ Deriv.v2OutSpecial pool z a1 := by
      unfold Deriv.v2OutSpecial
      exact mulDiv_nonneg _ _ _ (mul_nonneg (mul_nonneg hR_pos.le hE1_0) hpI.le) hden1.le
    exact parseBack_mono _ _ _ hout1_0 hout_mono

set_option maxRecDepth 1000000 in
/-- Concrete instantiation of the amended monotonicity statement at the
reference pools, at output/input amounts `10^18` and `2 * 10^18`. -/
theorem c9_monotonicity_witness :
    (503778337531486147 : Int) ≤ 1012658227848101267 ∧
    V1.swapExactInput referencePoolV1 true (10 ^ 18) ≤
      V1.swapExactInput referencePoolV1 true (2 * 10 ^ 18) ∧
    (503768844221105526 : Int) ≤ 1012626262626262626 ∧
    (1975308641975308641 : Int) ≤ 3911980440097799509 := by
  have e1a : V1.swapExactOutput referencePoolV1 true (10 ^ 18) =
      Except.ok 503778337531486147 := rfl
  have e1b : V1.swapExactOutput referencePoolV1 true (2 * 10 ^ 18) =
      Except.ok 1012658227848101267 := rfl
  have e3a : V2.swapExactOutput referencePoolV2 true (10 ^ 18) =
      Except.ok 503768844221105526 := rfl
  have e3b : V2.swapExactOutput referencePoolV2 true (2 * 10 ^ 18) =
      Except.ok 1012626262626262626 := rfl
  have e4a : V2.swapExactInput referencePoolV2 true (10 ^ 18) =
      Except.ok 1975308641975308641 := rfl
  have e4b : V2.swapExactInput referencePoolV2 true (2 * 10 ^ 18) =
      Except.ok 3911980440097799509 := rfl
  exact ⟨c9_monotonicity.1 referencePoolV1 true (10 ^ 18) (2 * 10 ^ 18)
      503778337531486147 1012658227848101267
      (by decide) (by decide) (by decide) (by decide) (by decide) (by decide) e1a e1b,
    c9_monotonicity.2.1 referencePoolV1 true (10 ^ 18) (2 * 10 ^ 18) (by decide),
    c9_monotonicity.2.2.1 referencePoolV2 true (10 ^ 18) (2 * 10 ^ 18)
      503768844221105526 1012626262626262626
      (by decide) (by decide) (by decide) (by decide) (by decide) (by decide) (by decide)
      e3a e3b,
    c9_monotonicity.2.2.2 referencePoolV2 true (10 ^ 18) (2 * 10 ^ 18)
      1975308641975308641 3911980440097799509
      rfl (by decide) (by decide) (by decide) (by decide) (by decide) (by decide) e4a e4b⟩

end BrownFi
